import Mathlib

/-!
Shallow embedding of the erc8128 HTTP message-signature library
(`src/src/verify.ts`, `src/src/lib/verifyUtils.ts`, `src/src/lib/keyId.ts`,
`src/src/lib/engine/*.ts`, `src/src/lib/policies/*.ts`) and proofs about the
verification pipeline.

Modelling conventions:
* JavaScript strings are Lean `String`s; most parsing is done on `List Char`.
* JavaScript numbers that the code requires to be integers are modelled as
  `Int`/`Nat`; `undefined`/`null` become `Option`.  Where the code checks
  `Number.isInteger(x)` on an arbitrary value, a non-integer number and
  `undefined` take the same branch, so both are modelled as `none`.
* The one numeric policy field for which `Math.floor` of a fractional value is
  observable (`maxSignatureVerifications`) is modelled as `Option ℚ`.
* Thrown `Erc8128Error`s are modelled as the `error` side of `Except`;
  functions that JavaScript lets throw return `Except Erc8128Err _`.
  Error message texts are kept close to the source but drop decorative
  quoting of tokens.
* The external collaborators (`verifyMessage`, the nonce store, SHA-256) are
  parameters: `verifyMessage` returns `Option Bool` (`none` models a thrown
  exception), the nonce store is a function `String → Int → Bool` (sound for a
  single verification call because the loop stops as soon as a `consume`
  returns `true`), and the hash is an abstract `List Nat → List Nat`.
-/

namespace Erc8128

/-! ### Small JavaScript string helpers -/

/-- Characters removed by `String.prototype.trim` (ASCII subset; the full
JS definition also trims some non-ASCII space characters, which never occur
in the headers modelled here). -/
def isJsWs (c : Char) : Bool :=
  c = ' ' || c = '\t' || c = '\n' || c = '\r' || c = '\x0b' || c = '\x0c'

/-- Trim on char lists: drop leading and trailing JS whitespace. -/
def jsTrimList (l : List Char) : List Char :=
  ((l.dropWhile isJsWs).reverse.dropWhile isJsWs).reverse

/-- Model of `String.prototype.trim`. -/
def jsTrim (s : String) : String :=
  (jsTrimList s.toList).asString

/-- ASCII lower-casing of one character (what `toLowerCase` does on the
ASCII-only strings this library lower-cases). -/
def asciiLower (c : Char) : Char :=
  if 'A' ≤ c ∧ c ≤ 'Z' then Char.ofNat (c.toNat + 32) else c

/-- ASCII upper-casing of one character. -/
def asciiUpper (c : Char) : Char :=
  if 'a' ≤ c ∧ c ≤ 'z' then Char.ofNat (c.toNat - 32) else c

/-- Model of `toLowerCase` on the ASCII strings used by the library. -/
def lowerString (s : String) : String :=
  (s.toList.map asciiLower).asString

/-- Model of `toUpperCase` on the ASCII strings used by the library. -/
def upperString (s : String) : String :=
  (s.toList.map asciiUpper).asString

/-- Value of a list of decimal digit characters (most significant first),
mirroring what `Number` does on an all-digit string.  (JavaScript loses
precision above 2^53; the integers in scope here are far below that.) -/
def dval (l : List Char) : Nat :=
  l.foldl (fun a c => 10 * a + (c.toNat - 48)) 0

/-- Decimal digit test, i.e. the regex class `\d` = `[0-9]`. -/
def isDigitChar (c : Char) : Bool :=
  '0' ≤ c && c ≤ '9'

/-- Hex digit test, i.e. the regex class `[0-9a-fA-F]`. -/
def isHexChar (c : Char) : Bool :=
  ('0' ≤ c && c ≤ '9') || ('a' ≤ c && c ≤ 'f') || ('A' ≤ c && c ≤ 'F')

/-! ### Error and result types (`src/src/lib/types.d.ts`) -/

/-- Error codes of `Erc8128Error`. -/
inductive ErrCode where
  | CRYPTO_UNAVAILABLE
  | INVALID_OPTIONS
  | UNSUPPORTED_REQUEST
  | BODY_READ_FAILED
  | DIGEST_REQUIRED
  | BAD_DERIVED_VALUE
  | BAD_HEADER_VALUE
  | PARSE_ERROR
deriving DecidableEq, Repr

/-- A thrown `Erc8128Error`. -/
structure Erc8128Err where
  code : ErrCode
  message : String
deriving DecidableEq, Repr

/-- The `VerifyFailReason` enum (reasons reachable from `verifyRequest`). -/
inductive VerifyReason where
  | missing_headers
  | label_not_found
  | bad_signature_input
  | bad_signature
  | bad_keyid
  | bad_time
  | not_yet_valid
  | expired
  | validity_too_long
  | nonce_required
  | replayable_not_allowed
  | class_bound_not_allowed
  | not_request_bound
  | nonce_window_too_long
  | replay
  | digest_mismatch
  | digest_required
  | bad_signature_bytes
  | bad_signature_check
deriving DecidableEq, Repr

/-- An `{ok:false, reason, detail?}` verification failure value. -/
structure FailRes where
  reason : VerifyReason
  detail : Option String := none
deriving DecidableEq, Repr

/-- Parsed signature parameters (`SignatureParams`): `created`/`expires` are
guaranteed integers by the parser, `nonce`/`tag` optional. -/
structure SigParams where
  created : Int
  expires : Int
  keyid : String
  nonce : Option String := none
  tag : Option String := none
deriving DecidableEq, Repr

/-- Binding classification of an attempt. -/
inductive AttemptKind where
  | requestBound
  | classBound
deriving DecidableEq, Repr

/-- The `{ok:true, ...}` verification success value. -/
structure VerifySuccess where
  address : String
  chainId : Nat
  label : String
  components : List String
  params : SigParams
  replayable : Bool
  binding : AttemptKind
deriving DecidableEq, Repr

/-- The tagged `VerifyResult` union. -/
inductive VerifyResult where
  | ok (s : VerifySuccess)
  | err (f : FailRes)
deriving DecidableEq, Repr

/-! ### Key identifier codec (`src/src/lib/keyId.ts`) -/

/-- Parsed key identifier, `{chainId, address}`. -/
structure KeyId where
  chainId : Nat
  address : String
deriving DecidableEq, Repr

/-- Model of `formatKeyId`: the template
`erc8128:${chainId}:${address.toLowerCase()}`.  The source first throws
`INVALID_OPTIONS` when `Number.isInteger(chainId)` fails; with `chainId : Nat`
that check always passes, so the throwing branch is unrepresentable here. -/
def formatKeyId (chainId : Nat) (address : String) : String :=
  "erc8128:" ++ Nat.repr chainId ++ ":" ++ lowerString address

/-- Address tail check of the `parseKeyId` regex: `0x` followed by exactly 40
hex characters, then end of string. -/
def keyIdAddressOk : List Char → Bool
  | '0' :: 'x' :: h => h.length == 40 && h.all isHexChar
  | _ => false

/-- Model of `parseKeyId`, implementing the anchored regex
`^erc8128:(\d+):(0x[0-9a-fA-F]\x7b40\x7d)$` as the (equivalent) deterministic
scan: literal prefix, a maximal nonempty digit run, a colon, and the address
group, with nothing trailing.  `Number(digits)` is modelled exactly by `dval`
(JavaScript rounds above 2^53 and `parseKeyId` would then return that rounded
integer; no claim in scope depends on such chain ids). -/
def parseKeyId (keyid : String) : Option KeyId :=
  match keyid.toList with
  | 'e' :: 'r' :: 'c' :: '8' :: '1' :: '2' :: '8' :: ':' :: rest =>
    let ds := rest.takeWhile isDigitChar
    if ds.isEmpty then none
    else
      match rest.dropWhile isDigitChar with
      | ':' :: addr =>
        if keyIdAddressOk addr then
          some ⟨dval ds, (addr.map asciiLower).asString⟩
        else none
      | _ => none
  | _ => none

/-! ### Byte/encoding utilities (`src/src/lib/utilities.ts`) -/

/-- The base64 alphabet, in code order. -/
def BASE64_ALPHABET : List Char :=
  "ABCDEFGHIJKLMNOPQRSTUVWXYZabcdefghijklmnopqrstuvwxyz0123456789+/".toList

/-- One base64 output character (index into the alphabet, 0–63). -/
def b64Char (n : Nat) : Char :=
  (BASE64_ALPHABET.getD n '?')

/-- Model of `base64Encode`: bytes three at a time, remainder padded with
`=`/`==`, exactly like the source loop. -/
def base64Encode : List Nat → String
  | [] => ""
  | [a] =>
    let n := a * 65536
    String.mk [b64Char (n / 262144 % 64), b64Char (n / 4096 % 64)] ++ "=="
  | [a, b] =>
    let n := a * 65536 + b * 256
    String.mk [b64Char (n / 262144 % 64), b64Char (n / 4096 % 64),
               b64Char (n / 64 % 64)] ++ "="
  | a :: b :: c :: rest =>
    let n := a * 65536 + b * 256 + c
    String.mk [b64Char (n / 262144 % 64), b64Char (n / 4096 % 64),
               b64Char (n / 64 % 64), b64Char (n % 64)] ++ base64Encode rest

/-- Decode table lookup for `base64Decode` (`BASE64_CODES`).  `none` models
table value 255 (invalid character, decode returns `null`).  For characters
with code ≥ 256 the source indexes past the `Uint8Array`, gets `undefined`,
and the following bit-or coerces it to 0 — modelled by `some 0`. -/
def b64Code (c : Char) : Option Nat :=
  if c.toNat ≥ 256 then some 0
  else if 'A' ≤ c ∧ c ≤ 'Z' then some (c.toNat - 65)
  else if 'a' ≤ c ∧ c ≤ 'z' then some (c.toNat - 97 + 26)
  else if '0' ≤ c ∧ c ≤ '9' then some (c.toNat - 48 + 52)
  else if c = '+' then some 62
  else if c = '/' then some 63
  else if c = '-' then some 62
  else if c = '_' then some 63
  else none

/-- Bit-accumulator loop of `base64Decode`. -/
def b64DecodeLoop : List Char → Nat → Nat → List Nat → Option (List Nat)
  | [], _, _, acc => some acc.reverse
  | c :: rest, buffer, bits, acc =>
    match b64Code c with
    | none => none
    | some code =>
      let buffer := buffer * 64 + code
      let bits := bits + 6
      if bits ≥ 8 then
        b64DecodeLoop rest buffer (bits - 8) ((buffer / 2 ^ (bits - 8)) % 256 :: acc)
      else
        b64DecodeLoop rest buffer bits acc

/-- Model of `base64Decode`: trim, strip trailing `=`, reject length ≡ 1
(mod 4), then decode 6 bits per character. -/
def base64Decode (b64 : String) : Option (List Nat) :=
  let cleaned := ((jsTrim b64).toList.reverse.dropWhile (· = '=')).reverse
  if cleaned.isEmpty then some []
  else if cleaned.length % 4 = 1 then none
  else b64DecodeLoop cleaned 0 0 []

/-- One lowercase hex digit character. -/
def hexDigitChar (n : Nat) : Char :=
  Nat.digitChar (n % 16)

/-- Model of `bytesToHex`: `0x` followed by two lowercase hex digits per
byte (`toString(16).padStart(2, "0")`). -/
def bytesToHex (bytes : List Nat) : String :=
  "0x" ++ (bytes.map (fun b => String.mk [hexDigitChar (b / 16), hexDigitChar b])).foldl (· ++ ·) ""

/-- UTF-8 encoding of a string to bytes (`utf8Encode` / `TextEncoder`). -/
def utf8Encode (s : String) : List Nat :=
  s.toUTF8.toList.map UInt8.toNat

/-! ### The HTTP request model

`verifyRequest` consumes a (fetch-API) `Request` only through: its parsed URL
(`sanitizeUrl(request.url)` — the fields of the WHATWG `URL` object), its
header map (`request.headers.get`, case-insensitive), `request.body != null`,
and the body bytes read via a clone (`readBodyBytes`).  The model carries
exactly those observations.  `new Request` already requires an absolute URL,
so the throwing branch of `sanitizeUrl` is unreachable and not modelled. -/

structure HttpRequest where
  /-- `request.method` (`Request` upper-cases common methods itself; the
  engine re-upper-cases anyway). -/
  method : String
  /-- `url.protocol` without the trailing colon. -/
  scheme : String
  /-- `url.hostname`. -/
  hostname : String
  /-- `url.port`: `none` models the empty string (absent or default port). -/
  port : Option Nat
  /-- `url.pathname`. -/
  pathname : String
  /-- `url.search`, including the leading `?`, or `""`. -/
  search : String
  /-- Header name/value pairs; lookup is case-insensitive. -/
  headers : List (String × String)
  /-- Whether `request.body != null`. -/
  hasBody : Bool
  /-- The body bytes `readBodyBytes` would produce. -/
  bodyBytes : List Nat
deriving DecidableEq, Repr

/-- Case-insensitive header lookup (`Headers.get`). -/
def headerGet (req : HttpRequest) (name : String) : Option String :=
  (req.headers.find? (fun p => lowerString p.1 = lowerString name)).map (·.2)

/-! ### Content digest codec (`src/src/lib/engine/contentDigest.ts`) -/

/-- Content digest modes. -/
inductive ContentDigestMode where
  | auto
  | recompute
  | require
  | off
deriving DecidableEq, Repr

/-- Alphabet of the algorithm name group `[A-Za-z0-9_-]`. -/
def isAlgChar (c : Char) : Bool :=
  ('A' ≤ c && c ≤ 'Z') || ('a' ≤ c && c ≤ 'z') || ('0' ≤ c && c ≤ '9') ||
    c = '_' || c = '-'

/-- Base64 body alphabet `[A-Za-z0-9+/]` of the digest/`sf-binary` regexes. -/
def isB64BodyChar (c : Char) : Bool :=
  ('A' ≤ c && c ≤ 'Z') || ('a' ≤ c && c ≤ 'z') || ('0' ≤ c && c ≤ '9') ||
    c = '+' || c = '/'

/-- Checks `^[A-Za-z0-9+/]+=\x7b0,2\x7d$`: a nonempty alphabet run followed by
at most two `=`. -/
def b64BodyOk (l : List Char) : Bool :=
  let stem := (l.reverse.dropWhile (· = '=')).reverse
  !stem.isEmpty && stem.all isB64BodyChar && (l.length - stem.length) ≤ 2

/-- Model of `parseContentDigest`: the regex
`^([A-Za-z0-9_-]+)=:([A-Za-z0-9+/]+=\x7b0,2\x7d):$` on the trimmed value,
algorithm lower-cased. -/
def parseContentDigest (v : String) : Option (String × String) :=
  let s := (jsTrim v).toList
  let alg := s.takeWhile isAlgChar
  if alg.isEmpty then none
  else
    match s.dropWhile isAlgChar with
    | '=' :: ':' :: rest =>
      match rest.reverse with
      | ':' :: innerRev =>
        let inner := innerRev.reverse
        if b64BodyOk inner then
          some ((alg.map asciiLower).asString, inner.asString)
        else none
      | _ => none
    | _ => none

/-- Model of `timingSafeEqualAscii`: equal lengths and zero accumulated xor. -/
def timingSafeEqualAscii (a b : String) : Bool :=
  a.length == b.length &&
    ((a.toList.zip b.toList).foldl (fun x p => x ||| (p.1.toNat ^^^ p.2.toNat)) 0 == 0)

/-- Model of `verifyContentDigest`, with the SHA-256 function abstracted as
`hash`.  Body bytes come from the request model (`readBodyBytes` via clone). -/
def verifyContentDigest (hash : List Nat → List Nat) (req : HttpRequest) : Bool :=
  match headerGet req "content-digest" with
  | none => false
  | some v =>
    match parseContentDigest v with
    | none => false
    | some (alg, b64) =>
      if alg ≠ "sha-256" then false
      else timingSafeEqualAscii b64 (base64Encode (hash req.bodyBytes))

/-- Model of `setContentDigestHeader`.  Returns the resulting request plus a
flag recording whether a digest was computed from the body (i.e. whether the
source reached `readBodyBytes`/`sha256`); errors model thrown
`Erc8128Error`s.  Setting a header via `new Headers`/`headers.set` is
modelled by replacing any existing `content-digest` entry. -/
def setHeader (headers : List (String × String)) (name value : String) :
    List (String × String) :=
  if (headers.find? (fun p => lowerString p.1 = lowerString name)).isSome then
    headers.map (fun p => if lowerString p.1 = lowerString name then (p.1, value) else p)
  else headers ++ [(name, value)]

def setContentDigestHeader (hash : List Nat → List Nat) (request : HttpRequest)
    (mode : ContentDigestMode) : Except Erc8128Err (HttpRequest × Bool) :=
  let existing := headerGet request "content-digest"
  if mode = .off then
    .error ⟨.DIGEST_REQUIRED,
      "content-digest is required by covered components, but contentDigest=off."⟩
  else if mode = .require ∧ existing = none then
    .error ⟨.DIGEST_REQUIRED, "content-digest is required but missing."⟩
  else if existing.isSome ∧ mode = .auto then
    .ok (request, false)
  else
    let digestB64 := base64Encode (hash request.bodyBytes)
    .ok ({ request with
            headers := setHeader request.headers "content-digest"
              ("sha-256=:" ++ digestB64 ++ ":") },
         true)

/-! ### Structured-field parsing (`src/src/lib/engine/createSignatureInput.ts`)

The source parsers walk an index `i` over a string; here they consume a
`List Char` instead, returning the unconsumed suffix.  The two unbounded
`while` loops (inner-list items and parameters) take a fuel argument; every
caller passes at least `length + 1`, which the loops never exhaust since each
iteration consumes at least one character. -/

/-- A parsed member of `Signature-Input`. -/
structure ParsedSignatureInputMember where
  label : String
  components : List String
  params : SigParams
  /-- Raw member value after `label=` (trimmed), reused verbatim for the
  `@signature-params` line. -/
  signatureParamsValue : String
deriving DecidableEq, Repr

/-- A parameter value: sf-string or integer. -/
inductive ParamVal where
  | str (s : String)
  | int (n : Int)
deriving DecidableEq, Repr

/-- Accumulated raw parameters (the source keeps a string-keyed record but
only ever reads these five keys; duplicates overwrite). -/
structure RawParams where
  created : Option ParamVal := none
  expires : Option ParamVal := none
  keyid : Option ParamVal := none
  nonce : Option ParamVal := none
  tag : Option ParamVal := none
deriving DecidableEq, Repr

/-- Store `params[key] = val` (keys other than the five named ones are kept
in the source record but never read; the model drops them). -/
def rawParamsSet (p : RawParams) (key : String) (val : ParamVal) : RawParams :=
  if key = "created" then { p with created := some val }
  else if key = "expires" then { p with expires := some val }
  else if key = "keyid" then { p with keyid := some val }
  else if key = "nonce" then { p with nonce := some val }
  else if key = "tag" then { p with tag := some val }
  else p

/-- Whitespace skipped by the parser (`skipWs`: space and tab only). -/
def isSfWs (c : Char) : Bool :=
  c = ' ' || c = '\t'

/-- Token alphabet `[A-Za-z0-9_\-*.]` of `parseToken`. -/
def isTokenChar (c : Char) : Bool :=
  ('A' ≤ c && c ≤ 'Z') || ('a' ≤ c && c ≤ 'z') || ('0' ≤ c && c ≤ '9') ||
    c = '_' || c = '-' || c = '*' || c = '.'

/-- The scanning loop of `parseSfString` (after the opening quote): an
escape copies the next character verbatim, a bare control character is
rejected, and hitting the end of input returns the content collected so far
(the source loop just ends, with no unterminated-string error). -/
def sfStringLoop : List Char → List Char → Except Erc8128Err (String × List Char)
  | [], acc => .ok (acc.reverse.asString, [])
  | '"' :: rest, _acc => .ok (_acc.reverse.asString, rest)
  | '\\' :: [], _ => .error ⟨.PARSE_ERROR, "Bad escape in sf-string."⟩
  | '\\' :: c :: rest, acc => sfStringLoop rest (c :: acc)
  | c :: rest, acc =>
    if c.toNat < 0x20 ∨ c.toNat = 0x7f then
      .error ⟨.PARSE_ERROR, "Control char in sf-string."⟩
    else sfStringLoop rest (c :: acc)

/-- Model of `parseSfString`: an opening quote then the scan loop. -/
def parseSfString : List Char → Except Erc8128Err (String × List Char)
  | '"' :: rest => sfStringLoop rest []
  | _ => .error ⟨.PARSE_ERROR, "Expected sf-string."⟩

/-- Model of `parseToken`: a nonempty run of token characters. -/
def parseToken (cs : List Char) : Except Erc8128Err (String × List Char) :=
  let tok := cs.takeWhile isTokenChar
  if tok.isEmpty then .error ⟨.PARSE_ERROR, "Expected token."⟩
  else .ok (tok.asString, cs.dropWhile isTokenChar)

/-- Model of `parseParamValue`: an sf-string, or an optional minus sign and a
digit run converted by `Number`.  A bare `-` yields `NaN`, which the source
rejects as a bad integer; an empty match is `Expected param value.`  (A digit
run long enough to overflow to `Infinity` is ≥ 300 characters and is modelled
as its exact integer value instead.) -/
def parseParamValue (cs : List Char) : Except Erc8128Err (ParamVal × List Char) :=
  match cs with
  | '"' :: _ => (parseSfString cs).map (fun (s, rest) => (.str s, rest))
  | '-' :: rest =>
    let ds := rest.takeWhile isDigitChar
    if ds.isEmpty then .error ⟨.PARSE_ERROR, "Bad integer param value."⟩
    else .ok (.int (-(dval ds : Int)), rest.dropWhile isDigitChar)
  | _ =>
    let ds := cs.takeWhile isDigitChar
    if ds.isEmpty then .error ⟨.PARSE_ERROR, "Expected param value."⟩
    else .ok (.int (dval ds : Int), cs.dropWhile isDigitChar)

/-- The item loop of `parseInnerListWithParams`: at each round, stop when the
input is exhausted (the source `while` guard), otherwise skip whitespace,
close on `)`, or parse one quoted item. -/
def innerItemsLoop (fuel : Nat) (cs : List Char) (acc : List String) :
    Except Erc8128Err (List String × List Char) :=
  match fuel with
  | 0 => .error ⟨.PARSE_ERROR, "fuel exhausted"⟩
  | fuel + 1 =>
    if cs.isEmpty then .ok (acc, cs)
    else
      match cs.dropWhile isSfWs with
      | ')' :: rest => .ok (acc, rest)
      | cs1 =>
        match parseSfString cs1 with
        | .error e => .error e
        | .ok (s, cs2) => innerItemsLoop fuel (cs2.dropWhile isSfWs) (acc ++ [s])

/-- The parameter loop of `parseInnerListWithParams`: while the input starts
(after whitespace) with `;`, read `token=value`. -/
def paramsLoop (fuel : Nat) (cs : List Char) (acc : RawParams) :
    Except Erc8128Err (RawParams × List Char) :=
  match fuel with
  | 0 => .error ⟨.PARSE_ERROR, "fuel exhausted"⟩
  | fuel + 1 =>
    if cs.isEmpty then .ok (acc, cs)
    else
      match cs.dropWhile isSfWs with
      | ';' :: rest =>
        match parseToken (rest.dropWhile isSfWs) with
        | .error e => .error e
        | .ok (key, rest2) =>
          match rest2.dropWhile isSfWs with
          | '=' :: rest3 =>
            match parseParamValue (rest3.dropWhile isSfWs) with
            | .error e => .error e
            | .ok (v, rest4) => paramsLoop fuel rest4 (rawParamsSet acc key v)
          | _ => .error ⟨.PARSE_ERROR, "Param " ++ key ++ " missing =."⟩
      | _ => .ok (acc, cs)

/-- Final validation of `parseInnerListWithParams`: `created`/`expires` must
be integers and `keyid` a string; `nonce`/`tag` are kept only when strings. -/
def finishSignatureParams (raw : RawParams) : Except Erc8128Err SigParams :=
  match raw.created, raw.expires, raw.keyid with
  | some (.int c), some (.int e), some (.str k) =>
    .ok { created := c, expires := e, keyid := k,
          nonce := match raw.nonce with | some (.str n) => some n | _ => none,
          tag := match raw.tag with | some (.str t) => some t | _ => none }
  | _, _, _ =>
    .error ⟨.PARSE_ERROR, "Missing or invalid created/expires/keyid in Signature-Input."⟩

/-- Model of `parseInnerListWithParams` on a member value. -/
def parseInnerListWithParams (value : String) :
    Except Erc8128Err (List String × SigParams) :=
  let s := (jsTrim value).toList
  match s with
  | '(' :: rest =>
    match innerItemsLoop (rest.length + 1) rest [] with
    | .error e => .error e
    | .ok (items, cs1) =>
      if items.isEmpty then .error ⟨.PARSE_ERROR, "Inner list has no items."⟩
      else
        match paramsLoop (cs1.length + 1) cs1 {} with
        | .error e => .error e
        | .ok (raw, _) => (finishSignatureParams raw).map (fun p => (items, p))
  | _ => .error ⟨.PARSE_ERROR, "Inner list must start with (."⟩

/-- Model of `splitTopLevelCommas`: split on commas outside quotes, tracking
backslash escapes inside quotes; a trailing nonempty chunk is kept. -/
def splitTopLevelCommasLoop : List Char → List Char → Bool → Bool →
    List String → List String
  | [], cur, _, _, out => if cur.isEmpty then out else out ++ [cur.reverse.asString]
  | ch :: rest, cur, inQuotes, isEscaped, out =>
    if isEscaped then splitTopLevelCommasLoop rest (ch :: cur) inQuotes false out
    else if ch = '\\' ∧ inQuotes then
      splitTopLevelCommasLoop rest (ch :: cur) inQuotes true out
    else if ch = '"' then
      splitTopLevelCommasLoop rest (ch :: cur) (!inQuotes) false out
    else if ch = ',' ∧ !inQuotes then
      splitTopLevelCommasLoop rest [] inQuotes false (out ++ [cur.reverse.asString])
    else splitTopLevelCommasLoop rest (ch :: cur) inQuotes false out

def splitTopLevelCommas (s : String) : List String :=
  splitTopLevelCommasLoop s.toList [] false false []

/-- Model of `assertLabel`: the regex `^[a-z][a-z0-9_.-]*$`. -/
def labelOk (label : String) : Bool :=
  match label.toList with
  | [] => false
  | c :: rest =>
    ('a' ≤ c && c ≤ 'z') &&
      rest.all (fun d =>
        ('a' ≤ d && d ≤ 'z') || ('0' ≤ d && d ≤ '9') || d = '_' || d = '.' || d = '-')

/-- Split one dictionary member at its first `=`; fails when the `=` is
missing or at index 0 (`eq <= 0`). -/
def splitMemberAtEq (m : List Char) (errMsg : String) :
    Except Erc8128Err (List Char × List Char) :=
  let before := m.takeWhile (· ≠ '=')
  match m.dropWhile (· ≠ '=') with
  | '=' :: after => if before.isEmpty then .error ⟨.PARSE_ERROR, errMsg⟩
                    else .ok (before, after)
  | _ => .error ⟨.PARSE_ERROR, errMsg⟩

/-- Parse one nonempty trimmed member of `Signature-Input`. -/
def parseSignatureInputMember (m : String) :
    Except Erc8128Err ParsedSignatureInputMember :=
  match splitMemberAtEq m.toList "Invalid Signature-Input member (missing =)." with
  | .error e => .error e
  | .ok (before, after) =>
    let label := jsTrim before.asString
    if !labelOk label then
      .error ⟨.PARSE_ERROR, "Invalid signature label: " ++ label⟩
    else
      let value := jsTrim after.asString
      match parseInnerListWithParams value with
      | .error e => .error e
      | .ok (items, params) =>
        .ok { label, components := items, params, signatureParamsValue := value }

/-- Model of `parseSignatureInputDictionary`. -/
def parseSignatureInputDictionary (headerValue : String) :
    Except Erc8128Err (List ParsedSignatureInputMember) :=
  (splitTopLevelCommas headerValue).foldlM
    (fun out raw =>
      let m := jsTrim raw
      if m = "" then .ok out
      else (parseSignatureInputMember m).map (fun p => out ++ [p]))
    []

/-- Model of `parseBinaryItem`: `:base64:` with the base64 alphabet check. -/
def parseBinaryItem (v : String) : Except Erc8128Err String :=
  let s := (jsTrim v).toList
  if s.length < 3 then .error ⟨.PARSE_ERROR, "Invalid sf-binary."⟩
  else
    match s with
    | ':' :: rest =>
      match rest.reverse with
      | ':' :: innerRev =>
        let inner := innerRev.reverse
        if b64BodyOk inner then .ok inner.asString
        else .error ⟨.PARSE_ERROR, "Invalid base64 in sf-binary."⟩
      | _ => .error ⟨.PARSE_ERROR, "Invalid sf-binary."⟩
    | _ => .error ⟨.PARSE_ERROR, "Invalid sf-binary."⟩

/-- Model of `parseSignatureDictionary`; the `Map` is an entry list, with
lookup returning the most recently set value for a label. -/
def parseSignatureDictionary (headerValue : String) :
    Except Erc8128Err (List (String × String)) :=
  (splitTopLevelCommas headerValue).foldlM
    (fun out raw =>
      let m := jsTrim raw
      if m = "" then .ok out
      else
        match splitMemberAtEq m.toList "Invalid Signature member (missing =)." with
        | .error e => .error e
        | .ok (before, after) =>
          let label := jsTrim before.asString
          if !labelOk label then
            .error ⟨.PARSE_ERROR, "Invalid signature label: " ++ label⟩
          else
            (parseBinaryItem after.asString).map (fun b64 => out ++ [(label, b64)]))
    []

/-- Lookup in the parsed signature dictionary (`Map.get`: last set wins). -/
def sigMapGet (m : List (String × String)) (label : String) : Option String :=
  (m.reverse.find? (fun p => p.1 = label)).map (·.2)

/-! ### Serialization helpers (`src/src/lib/engine/serializations.ts`) -/

/-- Model of `quoteSfString`: reject control characters, escape `\` and `"`,
wrap in quotes. -/
def quoteSfString (value : String) : Except Erc8128Err String :=
  if value.toList.any (fun c => c.toNat ≤ 0x1f ∨ c.toNat = 0x7f) then
    .error ⟨.BAD_HEADER_VALUE, "sf-string cannot contain control characters."⟩
  else
    .ok ("\"" ++
      (value.toList.foldl
        (fun acc c =>
          acc ++ (if c = '\\' then "\\\\" else if c = '"' then "\\\"" else String.mk [c]))
        "") ++ "\"")

/-! ### Policy normalization (`src/src/lib/policies/normalizePolicies.ts`) -/

/-- Model of `normalizeComponentsList`: trim each entry, drop empties and
duplicates, keep first-occurrence order.  (The source keeps a separate `seen`
set whose membership always equals the output list, so the output doubles as
the seen set here.) -/
def normalizeComponentsList : Option (List String) → List String
  | none => []
  | some cs =>
    cs.foldl
      (fun out raw =>
        let c := jsTrim raw
        if c = "" ∨ out.contains c then out else out ++ [c])
      []

/-- The `string[] | string[][]` union accepted for `classBoundPolicies`. -/
inductive ClassBoundPoliciesOpt where
  | flat (l : List String)
  | nested (l : List (List String))

/-- Model of `normalizeClassBoundPolicies`: empty input is no policies; a
flat string list is one policy; a nested list is normalized element-wise. -/
def normalizeClassBoundPolicies : Option ClassBoundPoliciesOpt → List (List String)
  | none => []
  | some (.flat l) => if l.isEmpty then [] else [normalizeComponentsList (some l)]
  | some (.nested ls) =>
    if ls.isEmpty then [] else ls.map (fun p => normalizeComponentsList (some p))

/-- Model of `ensureAuthority`: prepend `@authority` when missing. -/
def ensureAuthority (policy : List String) : List String :=
  if policy.contains "@authority" then policy else "@authority" :: policy

/-! ### Binding classification (`src/src/lib/policies/isRequestBound.ts`) -/

/-- Model of `requiredRequestBoundComponents`: `@authority`, `@method`,
`@path`, plus `@query`/`content-digest` per request shape, plus trimmed
deduplicated extras.  An absent `extraComponents` is the empty list (the
source skips the loop in both cases). -/
def requiredRequestBoundComponents (hasQuery hasBody : Bool)
    (extraComponents : List String) : List String :=
  let needed := ["@authority", "@method", "@path"]
    ++ (if hasQuery then ["@query"] else [])
    ++ (if hasBody then ["content-digest"] else [])
  extraComponents.foldl
    (fun needed raw =>
      let c := jsTrim raw
      if c = "" then needed
      else if needed.contains c then needed
      else needed ++ [c])
    needed

/-- Model of `includesAllComponents`: set containment of `required` in
`components`. -/
def includesAllComponents (required components : List String) : Bool :=
  required.all (fun req => components.contains req)

/-- Model of `isRequestBoundForThisRequest`. -/
def isRequestBoundForThisRequest (components : List String)
    (hasQuery hasBody : Bool) (extraComponents : List String) : Bool :=
  includesAllComponents (requiredRequestBoundComponents hasQuery hasBody extraComponents)
    components

/-! ### Signature base construction (`src/src/lib/engine/createSignatureBase.ts`) -/

/-- Model of `ensureNoCrlf` (returning the checked value on success). -/
def ensureNoCrlf (value name : String) : Except Erc8128Err String :=
  if value.toList.any (fun c => c = '\r' ∨ c = '\n') then
    .error ⟨.BAD_DERIVED_VALUE, name ++ " contains CR/LF."⟩
  else .ok value

/-- Whitespace-run collapsing of `canonicalizeFieldValue`
(`replace(/[ \t]+/g, " ")`), tracking whether the previous character was in
a run. -/
def collapseWsAux : List Char → Bool → List Char
  | [], _ => []
  | c :: rest, prevWs =>
    if isSfWs c then
      if prevWs then collapseWsAux rest true
      else ' ' :: collapseWsAux rest true
    else c :: collapseWsAux rest false

/-- Model of `canonicalizeFieldValue`: trim, then collapse space/tab runs. -/
def canonicalizeFieldValue (v : String) : String :=
  (collapseWsAux (jsTrim v).toList false).asString

/-- Model of `componentValueMinimal`: derived component values and
case-insensitive header lookup; a missing header field is a thrown
`BAD_HEADER_VALUE`. -/
def componentValueMinimal (req : HttpRequest) (component : String) :
    Except Erc8128Err String :=
  if component = "@method" then
    ensureNoCrlf (upperString (if req.method = "" then "GET" else req.method)) "@method"
  else if component = "@authority" then
    let scheme := lowerString req.scheme
    let hostname := lowerString req.hostname
    let authority :=
      match req.port with
      | none => hostname
      | some p =>
        if (scheme = "http" ∧ p = 80) ∨ (scheme = "https" ∧ p = 443) then hostname
        else hostname ++ ":" ++ Nat.repr p
    ensureNoCrlf authority "@authority"
  else if component = "@path" then
    ensureNoCrlf (if req.pathname = "" then "/" else req.pathname) "@path"
  else if component = "@query" then
    ensureNoCrlf req.search "@query"
  else
    match headerGet req component with
    | none =>
      .error ⟨.BAD_HEADER_VALUE, "Required header \"" ++ component ++ "\" is missing."⟩
    | some v => ensureNoCrlf (canonicalizeFieldValue v) component

/-- Model of `createSignatureBaseMinimal`: one `"name": value` line per
component (values restricted to visible ASCII plus space), then the
`"@signature-params"` line carrying the raw member value, UTF-8 encoded. -/
def createSignatureBaseMinimal (req : HttpRequest) (components : List String)
    (signatureParamsValue : String) : Except Erc8128Err (List Nat) := do
  let lines ← components.foldlM
    (fun (acc : List String) comp => do
      let value ← componentValueMinimal req comp
      if value.toList.any (fun c => c.toNat < 0x20 ∨ c.toNat > 0x7e) then
        .error (⟨.BAD_DERIVED_VALUE,
          "Component " ++ comp ++ " produced invalid characters."⟩ : Erc8128Err)
      else do
        let q ← quoteSfString comp
        pure (acc ++ [q ++ ": " ++ value]))
    []
  let qsp ← quoteSfString "@signature-params"
  let sigParamsLine := qsp ++ ": " ++ signatureParamsValue
  let base :=
    if lines.isEmpty then sigParamsLine
    else String.intercalate "\n" lines ++ "\n" ++ sigParamsLine
  pure (utf8Encode base)

/-! ### Candidate selection (`src/src/lib/engine/signatureHeaders.ts`) -/

/-- A candidate paired with its signature (`SelectedSignature`). -/
structure SelectedSignature where
  label : String
  components : List String
  params : SigParams
  signatureParamsValue : String
  sigB64 : String
deriving DecidableEq, Repr

/-- Result union of `selectSignatureFromHeaders`. -/
inductive SelectResult where
  | ok (selected : List SelectedSignature)
  | err (f : FailRes)
deriving DecidableEq, Repr

/-- Model of `selectSignatureFromHeaders`.  The `try`/`catch` of the source
catches exactly the parse errors of the two dictionary parsers (nothing else
inside the block throws) and turns them into `bad_signature_input` with the
error message as detail — both catch branches produce that same value. -/
def selectSignatureFromHeaders (signatureInputHeader signatureHeader : String)
    (labelPref : Option String) (strictLabelOpt : Option Bool) : SelectResult :=
  let strictLabel := strictLabelOpt.getD false
  match parseSignatureInputDictionary signatureInputHeader with
  | .error e => .err ⟨.bad_signature_input, some e.message⟩
  | .ok parsedInputs =>
    match parseSignatureDictionary signatureHeader with
    | .error e => .err ⟨.bad_signature_input, some e.message⟩
    | .ok parsedSigs =>
      let candidates := parsedInputs.filterMap (fun cand =>
        (sigMapGet parsedSigs cand.label).map (fun s =>
          ({ label := cand.label, components := cand.components,
             params := cand.params,
             signatureParamsValue := cand.signatureParamsValue,
             sigB64 := s } : SelectedSignature)))
      if candidates.isEmpty then .err ⟨.label_not_found, none⟩
      else
        match labelPref with
        | some pref =>
          if strictLabel then
            let strictCandidates := candidates.filter (fun c => c.label = pref)
            if strictCandidates.isEmpty then .err ⟨.label_not_found, none⟩
            else .ok strictCandidates
          else .ok candidates
        | none => .ok candidates

/-! ### Attempt construction (`src/src/lib/verifyUtils.ts`) -/

/-- A candidate whose `keyid` parsed. -/
structure VerifyCandidate where
  candidate : SelectedSignature
  key : KeyId
deriving DecidableEq, Repr

/-- One verification attempt. -/
structure Attempt where
  candidate : VerifyCandidate
  kind : AttemptKind
  policyLength : Nat
deriving DecidableEq, Repr

/-- Options record of `buildAttempts`. -/
structure BuildAttemptsOptions where
  hasQuery : Bool
  hasBody : Bool
  requestBoundExtras : List String
  requestBoundRequired : List String
  classBoundPolicies : List (List String)

/-- Minimum length over a nonempty list of policies
(`Math.min(...matching.map(length))`; the `[]` case is unreachable at the
call site). -/
def minPolicyLength : List (List String) → Nat
  | [] => 0
  | p :: rest => rest.foldl (fun a q => min a q.length) p.length

/-- Model of `buildAttempts`: classify each candidate in order, keeping the
original candidate order; the Boolean is `sawClassBound`. -/
def buildAttempts (candidates : List VerifyCandidate)
    (options : BuildAttemptsOptions) : List Attempt × Bool :=
  match candidates with
  | [] => ([], false)
  | entry :: rest =>
    let tailRes := buildAttempts rest options
    if isRequestBoundForThisRequest entry.candidate.components
        options.hasQuery options.hasBody options.requestBoundExtras then
      (⟨entry, .requestBound, options.requestBoundRequired.length⟩ :: tailRes.1,
       tailRes.2)
    else if options.classBoundPolicies.isEmpty then (tailRes.1, true)
    else
      let matching := options.classBoundPolicies.filter
        (fun policy => includesAllComponents policy entry.candidate.components)
      if matching.isEmpty then (tailRes.1, true)
      else (⟨entry, .classBound, minPolicyLength matching⟩ :: tailRes.1, true)

/-! ### Time and nonce checks (`src/src/lib/verifyUtils.ts`) -/

def DEFAULT_MAX_VALIDITY_SEC : Int := 300

/-- Options record of `runTimeChecks`.  `created`/`expires` are `none` when
`undefined` or not an integer number (the source sends both to `bad_time`);
`maxValiditySec` is `none` when `null`/`undefined`/not finite (the source
then falls back to the default). -/
structure TimeCheckArgs where
  now : Int
  skew : Int
  maxValiditySec : Option Int
  created : Option Int
  expires : Option Int

/-- Model of `runTimeChecks`. -/
def runTimeChecks (o : TimeCheckArgs) : Option FailRes :=
  match o.created, o.expires with
  | some created, some expires =>
    if expires ≤ created then some ⟨.bad_time, none⟩
    else if o.now + o.skew < created then some ⟨.not_yet_valid, none⟩
    else if o.now - o.skew > expires then some ⟨.expired, none⟩
    else
      let maxValidity := o.maxValiditySec.getD DEFAULT_MAX_VALIDITY_SEC
      if expires - created > maxValidity then some ⟨.validity_too_long, none⟩
      else none
  | _, _ => some ⟨.bad_time, none⟩

/-- The deferred replay-consumption plan (`NoncePlan`). -/
structure NoncePlan where
  replayKey : Option String
  replayStore : Option (String → Int → Bool)
  replayTtlSeconds : Int

def emptyNoncePlan : NoncePlan := ⟨none, none, 0⟩

/-- Options record of `runNonceChecks`. -/
structure NonceCheckArgs where
  allowReplayable : Bool
  params : SigParams
  now : Int
  nonceStore : Option (String → Int → Bool)
  nonceKey : Option (String → String → String)
  maxNonceWindowSec : Option Int

/-- Model of `runNonceChecks`.  `params.created`/`params.expires` are always
integers here (the parser guarantees it), so the source's `typeof` guards on
the nonce-window check reduce to the window comparison itself. -/
def runNonceChecks (o : NonceCheckArgs) : Option FailRes × NoncePlan :=
  let hasNonce := match o.params.nonce with
    | some n => !n.isEmpty
    | none => false
  if !hasNonce && !o.allowReplayable then
    (some ⟨.replayable_not_allowed, none⟩, emptyNoncePlan)
  else if hasNonce then
    match o.nonceStore with
    | none => (some ⟨.nonce_required, some "nonceStore missing"⟩, emptyNoncePlan)
    | some store =>
      if (match o.maxNonceWindowSec with
          | some w => decide (o.params.expires - o.params.created > w)
          | none => false) then
        (some ⟨.nonce_window_too_long, none⟩, emptyNoncePlan)
      else
        match o.params.nonce with
        | some nonce =>
          if nonce.isEmpty then
            (some ⟨.nonce_required, some "nonce missing"⟩, emptyNoncePlan)
          else
            let keyFn := o.nonceKey.getD (fun k n => k ++ ":" ++ n)
            (none,
             ⟨some (keyFn o.params.keyid nonce), some store,
              max 0 (o.params.expires - o.now)⟩)
        | none => (some ⟨.nonce_required, some "nonce missing"⟩, emptyNoncePlan)
  else (none, emptyNoncePlan)

/-! ### Accept-Signature advertisement (`src/src/verify.ts`) -/

/-- Model of `serializeAcceptSignatureValue`: the quoted component inner list
followed by the bare parameter keys, `nonce` last and only when required. -/
def serializeAcceptSignatureValue (components : List String)
    (requireNonce : Bool) : Except Erc8128Err String := do
  let quoted ← components.mapM quoteSfString
  pure ("(" ++ String.intercalate " " quoted ++ ");keyid;created;expires" ++
    (if requireNonce then ";nonce" else ""))

/-- Dedup key of `addEntry`: components joined with `"\u0000"`. -/
def nulJoin (components : List String) : String :=
  String.intercalate (String.mk ['\x00']) components

/-- State-passing model of the `addEntry` closure: `(entries, seen, index)`. -/
def addAcceptEntry (requireNonce : Bool) (st : List String × List String × Nat)
    (components : List String) : Except Erc8128Err (List String × List String × Nat) :=
  let key := nulJoin components
  if st.2.1.contains key then .ok st
  else do
    let value ← serializeAcceptSignatureValue components requireNonce
    pure (st.1 ++ ["sig" ++ Nat.repr st.2.2 ++ "=" ++ value],
          st.2.1 ++ [key], st.2.2 + 1)

/-- Model of `buildAcceptSignatureHeader`: the request-bound required set
first, then each class-bound policy, deduplicated by the joined key. -/
def buildAcceptSignatureHeader (requestBoundRequired : List String)
    (classBoundPolicies : List (List String)) (requireNonce : Bool) :
    Except Erc8128Err String := do
  let st ← addAcceptEntry requireNonce ([], [], 1) requestBoundRequired
  let st ← classBoundPolicies.foldlM (addAcceptEntry requireNonce) st
  pure (String.intercalate ", " st.1)

/-! ### The verification pipeline (`src/src/verify.ts`) -/

/-- Resolved environment a single attempt runs in (the loop body's free
variables). -/
structure AttemptEnv where
  request : HttpRequest
  now : Int
  skew : Int
  allowReplayable : Bool
  maxValiditySec : Option Int
  maxNonceWindowSec : Option Int
  nonceStore : Option (String → Int → Bool)
  nonceKey : Option (String → String → String)
  verifyMessage : Option (String → String → String → Option Bool)
  hash : List Nat → List Nat

/-- Observable collaborator interactions of one attempt: the results of each
`verifyMessage` call (`none` = it threw) and of each nonce-store `consume`
call `(key, ttlSeconds, returned)`. -/
structure AttemptLog where
  verifyCalls : List (Option Bool) := []
  consumeCalls : List (String × Int × Bool) := []
deriving DecidableEq, Repr

/-- Outcome of one attempt: success returns from `verifyRequest`, a failure
sets `lastFailure` and continues, a thrown error propagates out. -/
inductive AttemptOutcome where
  | ok (s : VerifySuccess)
  | fail (f : FailRes)
  | thrown (e : Erc8128Err)
deriving DecidableEq, Repr

/-- Model of the replay-consumption block guarded by `if (ok)` in
`verifyRequest` (the code after the crypto check returned `true`): consume
the plan when it carries a key and a store, fail `replay` when consumption
reports the key as already used, succeed otherwise.  The recorded log starts
with the successful `verifyMessage` call that guards this block. -/
def consumePhase (success : VerifySuccess) (noncePlan : NoncePlan) :
    AttemptOutcome × AttemptLog :=
  match noncePlan.replayKey, noncePlan.replayStore with
  | some replayKey, some store =>
    if replayKey.isEmpty then (.ok success, { verifyCalls := [some true] })
    else
      if store replayKey noncePlan.replayTtlSeconds then
        (.ok success,
         { verifyCalls := [some true],
           consumeCalls := [(replayKey, noncePlan.replayTtlSeconds, true)] })
      else
        (.fail ⟨.replay, none⟩,
         { verifyCalls := [some true],
           consumeCalls := [(replayKey, noncePlan.replayTtlSeconds, false)] })
  | _, _ => (.ok success, { verifyCalls := [some true] })

/-- The `{ok:true, ...}` value the loop body would return for an attempt
(`replayable` is `!params.nonce || params.nonce.length === 0`). -/
def attemptSuccess (attempt : Attempt) : VerifySuccess :=
  ⟨attempt.candidate.key.address, attempt.candidate.key.chainId,
   attempt.candidate.candidate.label, attempt.candidate.candidate.components,
   attempt.candidate.candidate.params,
   (match attempt.candidate.candidate.params.nonce with
    | none => true
    | some n => n.isEmpty),
   attempt.kind⟩

/-- Model of the signature-base/decode/crypto part of the loop body (lines
218–273 of `src/src/verify.ts`): build the base (a thrown error propagates),
decode the signature, call the external verifier (`none` = it threw, caught
as `bad_signature_check`), then run the consume phase on success. -/
def cryptoPhase (env : AttemptEnv) (attempt : Attempt) (noncePlan : NoncePlan) :
    AttemptOutcome × AttemptLog :=
  match createSignatureBaseMinimal env.request attempt.candidate.candidate.components
      attempt.candidate.candidate.signatureParamsValue with
  | .error e => (.thrown e, {})
  | .ok M =>
    match base64Decode attempt.candidate.candidate.sigB64 with
    | none => (.fail ⟨.bad_signature_bytes, none⟩, {})
    | some sigBytes =>
      if sigBytes.isEmpty then (.fail ⟨.bad_signature_bytes, none⟩, {})
      else
        match env.verifyMessage with
        | none =>
          (.fail ⟨.bad_signature_check, some "verifyMessage missing in policy"⟩, {})
        | some verifyFn =>
          match verifyFn attempt.candidate.key.address (bytesToHex M)
              (bytesToHex sigBytes) with
          | none => (.fail ⟨.bad_signature_check, none⟩, { verifyCalls := [none] })
          | some false => (.fail ⟨.bad_signature, none⟩, { verifyCalls := [some false] })
          | some true => consumePhase (attemptSuccess attempt) noncePlan

/-- Model of the body of the attempt loop in `verifyRequest` (lines 172–273
of `src/src/verify.ts`), one attempt at a time: time checks, nonce checks,
the content-digest gate, then the crypto phase. -/
def runAttempt (env : AttemptEnv) (attempt : Attempt) : AttemptOutcome × AttemptLog :=
  match runTimeChecks ⟨env.now, env.skew, env.maxValiditySec,
      some attempt.candidate.candidate.params.created,
      some attempt.candidate.candidate.params.expires⟩ with
  | some timeFailure => (.fail timeFailure, {})
  | none =>
    match runNonceChecks ⟨env.allowReplayable, attempt.candidate.candidate.params,
        env.now, env.nonceStore, env.nonceKey, env.maxNonceWindowSec⟩ with
    | (some nonceFailure, _) => (.fail nonceFailure, {})
    | (none, noncePlan) =>
      if attempt.candidate.candidate.components.contains "content-digest" then
        match headerGet env.request "content-digest" with
        | none => (.fail ⟨.digest_required, none⟩, {})
        | some _ =>
          if verifyContentDigest env.hash env.request then
            cryptoPhase env attempt noncePlan
          else (.fail ⟨.digest_mismatch, none⟩, {})
      else cryptoPhase env attempt noncePlan

/-- One entry of the verification trace: which attempt ran and what it did. -/
structure TraceEntry where
  kind : AttemptKind
  log : AttemptLog
deriving DecidableEq, Repr

def DEFAULT_MAX_SIGNATURE_VERIFICATIONS : Int := 3

/-- Resolution of `maxSignatureVerifications`: a supplied positive finite
number is floored, everything else gets the default.  (`ℚ` stands in for a
finite JS number; `NaN`/`±Infinity` are modelled as `none` since both take
the default branch.) -/
def resolveMaxSignatureVerifications : Option ℚ → Int
  | some q => if 0 < q then q.floor else DEFAULT_MAX_SIGNATURE_VERIFICATIONS
  | none => DEFAULT_MAX_SIGNATURE_VERIFICATIONS

/-- Model of the bounded attempt loop of `verifyRequest`: stop when `tried`
reaches the cap, return on the first success, propagate a thrown error,
otherwise remember the failure and continue. -/
def verifyLoop (env : AttemptEnv) (maxSignatureVerifications : Int) :
    List Attempt → Nat → FailRes → List TraceEntry →
    Except Erc8128Err VerifyResult × List TraceEntry
  | [], _, lastFailure, trace => (.ok (.err lastFailure), trace)
  | attempt :: rest, tried, lastFailure, trace =>
    if (tried : Int) ≥ maxSignatureVerifications then (.ok (.err lastFailure), trace)
    else
      match runAttempt env attempt with
      | (.ok s, log) => (.ok (.ok s), trace ++ [⟨attempt.kind, log⟩])
      | (.thrown e, log) => (.error e, trace ++ [⟨attempt.kind, log⟩])
      | (.fail f, log) =>
        verifyLoop env maxSignatureVerifications rest (tried + 1) f
          (trace ++ [⟨attempt.kind, log⟩])

/-- The `VerifyPolicy` options object (fields consulted by `verifyRequest`;
`label`…`nonceKey` as in `src/src/lib/types.d.ts`). -/
structure VerifyPolicyM where
  label : Option String := none
  strictLabel : Option Bool := none
  additionalRequestBoundComponents : Option (List String) := none
  classBoundPolicies : Option ClassBoundPoliciesOpt := none
  replayable : Option Bool := none
  maxSignatureVerifications : Option ℚ := none
  now : Option Int := none
  clockSkewSec : Option Int := none
  maxValiditySec : Option Int := none
  maxNonceWindowSec : Option Int := none
  nonceKey : Option (String → String → String) := none

/-- Model of `verifyRequest`.  Extra model parameters: `sysNow` is what
`unixNow()` would return (used only when the policy supplies no `now`), and
`hash` is the SHA-256 function.  The result pairs the returned
`VerifyResult` (or a thrown error) with the attempt trace.  The optional
`setHeaders` side channel is omitted: its `Accept-Signature` emission is
wrapped in `try`/`catch` and cannot affect the result (it is modelled by
`buildAcceptSignatureHeader` above). -/
def verifyRequest (request : HttpRequest)
    (verifyMessage : Option (String → String → String → Option Bool))
    (nonceStore : Option (String → Int → Bool))
    (policy : VerifyPolicyM) (sysNow : Int) (hash : List Nat → List Nat) :
    Except Erc8128Err VerifyResult × List TraceEntry :=
  let now := policy.now.getD sysNow
  let skew := policy.clockSkewSec.getD 0
  let allowReplayable := policy.replayable.getD false
  let hasQuery := !request.search.isEmpty
  let hasBody := request.hasBody
  let requestBoundExtras :=
    normalizeComponentsList policy.additionalRequestBoundComponents
  let requestBoundRequired :=
    requiredRequestBoundComponents hasQuery hasBody requestBoundExtras
  let classBoundPolicies :=
    (normalizeClassBoundPolicies policy.classBoundPolicies).map ensureAuthority
  match headerGet request "Signature-Input", headerGet request "Signature" with
  | some sigInputHeader, some sigHeader =>
    if sigInputHeader = "" ∨ sigHeader = "" then
      (.ok (.err ⟨.missing_headers, none⟩), [])
    else
      match selectSignatureFromHeaders sigInputHeader sigHeader
          policy.label policy.strictLabel with
      | .err f => (.ok (.err f), [])
      | .ok candidates =>
        let validCandidates := candidates.filterMap (fun candidate =>
          (parseKeyId candidate.params.keyid).map
            (fun key => ({ candidate, key } : VerifyCandidate)))
        if validCandidates.isEmpty then (.ok (.err ⟨.bad_keyid, none⟩), [])
        else
          let built := buildAttempts validCandidates
            ⟨hasQuery, hasBody, requestBoundExtras, requestBoundRequired,
             classBoundPolicies⟩
          if built.1.isEmpty then
            if built.2 ∧ ¬classBoundPolicies.isEmpty then
              (.ok (.err ⟨.class_bound_not_allowed, none⟩), [])
            else (.ok (.err ⟨.not_request_bound, none⟩), [])
          else
            verifyLoop
              ⟨request, now, skew, allowReplayable, policy.maxValiditySec,
               policy.maxNonceWindowSec, nonceStore, policy.nonceKey,
               verifyMessage, hash⟩
              (resolveMaxSignatureVerifications policy.maxSignatureVerifications)
              built.1 0 ⟨.bad_signature, none⟩ []
  | _, _ => (.ok (.err ⟨.missing_headers, none⟩), [])

/-! ### Reference definitions used to state ordering/dedup properties -/

/-- Per-candidate classification (the body of the `buildAttempts` loop as a
function of one candidate): request-bound attempts keep the required-set
length, class-bound attempts the shortest matching policy length, unmatched
candidates are dropped. -/
def classifyCandidate (options : BuildAttemptsOptions) (entry : VerifyCandidate) :
    Option Attempt :=
  if isRequestBoundForThisRequest entry.candidate.components
      options.hasQuery options.hasBody options.requestBoundExtras then
    some ⟨entry, .requestBound, options.requestBoundRequired.length⟩
  else if options.classBoundPolicies.isEmpty then none
  else
    let matching := options.classBoundPolicies.filter
      (fun policy => includesAllComponents policy entry.candidate.components)
    if matching.isEmpty then none
    else some ⟨entry, .classBound, minPolicyLength matching⟩

/-- Reference rendering of Accept-Signature entries with no deduplication:
one numbered entry per component list, in order. -/
def acceptEntriesAll (requireNonce : Bool) :
    List (List String) → Nat → Except Erc8128Err (List String)
  | [], _ => .ok []
  | c :: rest, startIndex => do
    let v ← serializeAcceptSignatureValue c requireNonce
    let tail ← acceptEntriesAll requireNonce rest (startIndex + 1)
    pure (("sig" ++ Nat.repr startIndex ++ "=" ++ v) :: tail)

/-- Number of `verifyMessage` invocations recorded in a trace. -/
def countVerifyCalls (trace : List TraceEntry) : Nat :=
  (trace.map (fun t => t.log.verifyCalls.length)).sum

/-! ### Concrete example inputs used by witnesses and counterexamples -/

/-- A valid mixed-case address (20 bytes of hex). -/
def exAddr : String := "0xAAaaaaaaaaaaaaaaaaaaaaaaaaaaaaaaaaaaaaaa"

/-- The corresponding key identifier string (as `formatKeyId` renders it). -/
def exKeyId : String := "erc8128:1:0xaaaaaaaaaaaaaaaaaaaaaaaaaaaaaaaaaaaaaaaa"

/-- A `verifyMessage` collaborator that always accepts. -/
def exVerifyTrue : Option (String → String → String → Option Bool) :=
  some (fun _ _ _ => some true)

/-- A nonce store whose `consume` always succeeds. -/
def exStoreTrue : Option (String → Int → Bool) := some (fun _ _ => true)

/-- A placeholder hash function (the scenarios below cover no body). -/
def exHash : List Nat → List Nat := fun _ => List.replicate 32 0

/-- Example signature parameters with nonce `n1`. -/
def exParamsN1 : SigParams :=
  { created := 100, expires := 200, keyid := exKeyId, nonce := some "n1" }

/-- Example signature parameters with nonce `n2`. -/
def exParamsN2 : SigParams :=
  { created := 100, expires := 200, keyid := exKeyId, nonce := some "n2" }

/-- Signature-Input header for the ordering scenario: a class-bound member
(label `class`, components `("@authority")`) followed by a request-bound
member (label `request`). -/
def exOrderingSigInput : String :=
  "class=(\"@authority\");created=100;expires=200;nonce=\"n1\";keyid=\"" ++ exKeyId ++
  "\", request=(\"@authority\" \"@method\" \"@path\");created=100;expires=200;nonce=\"n2\";keyid=\"" ++
  exKeyId ++ "\""

/-- Matching Signature header for the ordering scenario. -/
def exOrderingSig : String := "class=:AAAA:, request=:AAAA:"

/-- A plain GET request carrying the ordering scenario's headers. -/
def exOrderingRequest : HttpRequest :=
  { method := "GET", scheme := "https", hostname := "example.com", port := none,
    pathname := "/", search := "",
    headers := [("Signature-Input", exOrderingSigInput), ("Signature", exOrderingSig)],
    hasBody := false, bodyBytes := [] }

/-- Verification policy for the ordering scenario: fixed clock, one
class-bound policy `["@authority"]`. -/
def exOrderingPolicy : VerifyPolicyM :=
  { now := some 150, classBoundPolicies := some (.flat ["@authority"]) }

/-- The class-bound candidate the ordering scenario's headers parse to. -/
def exClassCandidate : SelectedSignature :=
  { label := "class", components := ["@authority"], params := exParamsN1,
    signatureParamsValue :=
      "(\"@authority\");created=100;expires=200;nonce=\"n1\";keyid=\"" ++ exKeyId ++ "\"",
    sigB64 := "AAAA" }

/-- The request-bound candidate the ordering scenario's headers parse to. -/
def exRequestCandidate : SelectedSignature :=
  { label := "request", components := ["@authority", "@method", "@path"],
    params := exParamsN2,
    signatureParamsValue :=
      "(\"@authority\" \"@method\" \"@path\");created=100;expires=200;nonce=\"n2\";keyid=\"" ++
        exKeyId ++ "\"",
    sigB64 := "AAAA" }

/-- The parsed key identifier of both example candidates. -/
def exKey : KeyId := ⟨1, "0xaaaaaaaaaaaaaaaaaaaaaaaaaaaaaaaaaaaaaaaa"⟩

/-- The `buildAttempts` options `verifyRequest` derives for the ordering
scenario (no query/body, no extras, class-bound policy `["@authority"]`). -/
def exOrderingOptions : BuildAttemptsOptions :=
  { hasQuery := false, hasBody := false, requestBoundExtras := [],
    requestBoundRequired := ["@authority", "@method", "@path"],
    classBoundPolicies := [["@authority"]] }

/-- Signature-Input header covering a header field (`x-missing`) the request
does not carry. -/
def exMissingHeaderSigInput : String :=
  "sig=(\"@authority\" \"@method\" \"@path\" \"x-missing\");created=100;expires=200;nonce=\"n\";keyid=\"" ++
    exKeyId ++ "\""

/-- A plain GET request whose only signature covers the absent `x-missing`
header field. -/
def exMissingHeaderRequest : HttpRequest :=
  { method := "GET", scheme := "https", hostname := "example.com", port := none,
    pathname := "/", search := "",
    headers := [("Signature-Input", exMissingHeaderSigInput), ("Signature", "sig=:AAAA:")],
    hasBody := false, bodyBytes := [] }

/-- Fixed-clock policy used by several scenarios. -/
def exNowPolicy : VerifyPolicyM := { now := some 150 }

/-- A POST request already carrying a `Content-Digest` header. -/
def exDigestRequest : HttpRequest :=
  { method := "POST", scheme := "https", hostname := "example.com", port := none,
    pathname := "/", search := "",
    headers := [("content-digest", "sha-256=:existing:")],
    hasBody := true, bodyBytes := [104, 105] }

/-- A request whose `Signature-Input` label has no matching `Signature`
member. -/
def exLabelMismatchRequest : HttpRequest :=
  { method := "GET", scheme := "https", hostname := "example.com", port := none,
    pathname := "/", search := "",
    headers :=
      [("Signature-Input",
        "sig=(\"@authority\" \"@method\" \"@path\");created=100;expires=200;keyid=\"" ++
          exKeyId ++ "\""),
       ("Signature", "other=:AAAA:")],
    hasBody := false, bodyBytes := [] }

/-- A request whose `Signature-Input` header is not a dictionary at all. -/
def exNotADictionaryRequest : HttpRequest :=
  { method := "GET", scheme := "https", hostname := "example.com", port := none,
    pathname := "/", search := "",
    headers := [("Signature-Input", "not-a-dictionary"), ("Signature", "x=:AAAA:")],
    hasBody := false, bodyBytes := [] }

/-- A request signed with an explicitly empty nonce string. -/
def exEmptyNonceRequest : HttpRequest :=
  { method := "GET", scheme := "https", hostname := "example.com", port := none,
    pathname := "/", search := "",
    headers :=
      [("Signature-Input",
        "sig=(\"@authority\" \"@method\" \"@path\");created=100;expires=200;nonce=\"\";keyid=\"" ++
          exKeyId ++ "\""),
       ("Signature", "sig=:AAAA:")],
    hasBody := false, bodyBytes := [] }

/-- Attempt environment for per-attempt witnesses: fixed clock, always-true
verifier, a store whose `consume` reports the key as already used. -/
def exReplayEnv : AttemptEnv :=
  { request :=
      { method := "GET", scheme := "https", hostname := "example.com", port := none,
        pathname := "/", search := "", headers := [], hasBody := false,
        bodyBytes := [] },
    now := 150, skew := 0, allowReplayable := false, maxValiditySec := none,
    maxNonceWindowSec := none, nonceStore := some (fun _ _ => false),
    nonceKey := none, verifyMessage := some (fun _ _ _ => some true),
    hash := exHash }

/-- A request-bound attempt (nonce `n1`) for per-attempt witnesses. -/
def exReplayAttempt : Attempt :=
  { candidate :=
      { candidate :=
          { label := "sig", components := ["@authority", "@method", "@path"],
            params := exParamsN1,
            signatureParamsValue :=
              "(\"@authority\" \"@method\" \"@path\");created=100;expires=200;nonce=\"n1\";keyid=\"" ++
                exKeyId ++ "\"",
            sigB64 := "AAAA" },
        key := exKey },
    kind := .requestBound, policyLength := 3 }

/-- Nonce-check arguments with an explicitly empty nonce under the default
(non-replayable) policy. -/
def exEmptyNonceArgs : NonceCheckArgs :=
  { allowReplayable := false,
    params := { created := 100, expires := 200, keyid := exKeyId, nonce := some "" },
    now := 150, nonceStore := exStoreTrue, nonceKey := none,
    maxNonceWindowSec := none }

/-- The replay environment with replayable signatures allowed. -/
def exReplayableEnv : AttemptEnv := { exReplayEnv with allowReplayable := true }

/-- The same attempt with an empty-string nonce. -/
def exEmptyNonceAttempt : Attempt :=
  { candidate :=
      { candidate :=
          { label := "sig", components := ["@authority", "@method", "@path"],
            params := { created := 100, expires := 200, keyid := exKeyId, nonce := some "" },
            signatureParamsValue :=
              "(\"@authority\" \"@method\" \"@path\");created=100;expires=200;nonce=\"\";keyid=\"" ++
                exKeyId ++ "\"",
            sigB64 := "AAAA" },
        key := exKey },
    kind := .requestBound, policyLength := 3 }

deriving instance DecidableEq for Except

set_option maxRecDepth 8000

/-! ## Theorems -/

/-- Helper: with an empty-string or absent nonce, `runNonceChecks` reduces to
the replayability gate alone, with an empty plan. -/
theorem runNonceChecks_emptyish (o : NonceCheckArgs)
    (h : o.params.nonce = some "" ∨ o.params.nonce = none) :
    runNonceChecks o =
      (if o.allowReplayable then (none, emptyNoncePlan)
       else (some ⟨.replayable_not_allowed, none⟩, emptyNoncePlan)) := by
  obtain ⟨ar, p, now, ns, nk, mw⟩ := o
  obtain ⟨c, e, k, nc, tg⟩ := p
  rcases h with h | h <;> (simp only at h; subst h) <;>
    · unfold runNonceChecks
      cases ar <;> rfl

/-- Helper: the consume phase either skips the store, or makes exactly one
`consume` call whose Boolean result decides between success and `replay`. -/
theorem consumePhase_shape (s : VerifySuccess) (plan : NoncePlan) :
    consumePhase s plan = (.ok s, ⟨[some true], []⟩) ∨
    (∃ k t, consumePhase s plan = (.ok s, ⟨[some true], [(k, t, true)]⟩)) ∨
    (∃ k t, consumePhase s plan = (.fail ⟨.replay, none⟩, ⟨[some true], [(k, t, false)]⟩)) := by
  obtain ⟨rk, st, ttl⟩ := plan
  unfold consumePhase
  rcases rk with _ | k <;> rcases st with _ | f <;> simp
  split_ifs <;> simp_all

/-- Helper: every leaf of the crypto phase either makes no consume call (and
at most one verify call), or consumed after a successful verify call. -/
theorem cryptoPhase_shape (env : AttemptEnv) (a : Attempt) (plan : NoncePlan) :
    ((cryptoPhase env a plan).2.consumeCalls = [] ∧
      (cryptoPhase env a plan).2.verifyCalls.length ≤ 1) ∨
    (∃ k t, (cryptoPhase env a plan).2 = ⟨[some true], [(k, t, true)]⟩ ∧
            (cryptoPhase env a plan).1 = .ok (attemptSuccess a)) ∨
    (∃ k t, (cryptoPhase env a plan).2 = ⟨[some true], [(k, t, false)]⟩ ∧
            (cryptoPhase env a plan).1 = .fail ⟨.replay, none⟩) := by
  unfold cryptoPhase
  repeat' split
  all_goals try (left; exact ⟨rfl, by simp⟩)
  rcases consumePhase_shape (attemptSuccess a) plan with h | ⟨k, t, h⟩ | ⟨k, t, h⟩ <;>
      rw [h] <;> simp

/-- Helper: shape of a whole attempt — same three-way disjunction as the
crypto phase (the earlier gates all return with an empty log). -/
theorem runAttempt_shape (env : AttemptEnv) (a : Attempt) :
    ((runAttempt env a).2.consumeCalls = [] ∧ (runAttempt env a).2.verifyCalls.length ≤ 1) ∨
    (∃ k t, (runAttempt env a).2 = ⟨[some true], [(k, t, true)]⟩ ∧
            (runAttempt env a).1 = .ok (attemptSuccess a)) ∨
    (∃ k t, (runAttempt env a).2 = ⟨[some true], [(k, t, false)]⟩ ∧
            (runAttempt env a).1 = .fail ⟨.replay, none⟩) := by
  unfold runAttempt
  repeat' split
  all_goals try (left; exact ⟨rfl, by simp⟩)
  all_goals exact cryptoPhase_shape env a _

/-- Helper: a plan without a key never reaches the store. -/
theorem consumePhase_plan_none (s : VerifySuccess) (plan : NoncePlan)
    (hk : plan.replayKey = none) :
    consumePhase s plan = (.ok s, { verifyCalls := [some true] }) := by
  unfold consumePhase
  rw [hk]

/-- Helper: with a key-less plan the crypto phase makes no consume call. -/
theorem cryptoPhase_plan_none (env : AttemptEnv) (a : Attempt) (plan : NoncePlan)
    (hk : plan.replayKey = none) :
    (cryptoPhase env a plan).2.consumeCalls = [] := by
  unfold cryptoPhase
  repeat' split
  all_goals try rfl
  rw [consumePhase_plan_none _ _ hk]

/-- Helper: a successful consume phase returns the given success value. -/
theorem consumePhase_ok (s s' : VerifySuccess) (plan : NoncePlan)
    (h : (consumePhase s plan).1 = .ok s') : s' = s := by
  rcases consumePhase_shape s plan with hc | ⟨k, t, hc⟩ | ⟨k, t, hc⟩ <;>
    rw [hc] at h <;> simp_all

/-- Helper: a successful crypto phase returns the attempt's success value. -/
theorem cryptoPhase_ok (env : AttemptEnv) (a : Attempt) (plan : NoncePlan)
    (s : VerifySuccess) (h : (cryptoPhase env a plan).1 = .ok s) :
    s = attemptSuccess a := by
  unfold cryptoPhase at h
  repeat' split at h
  all_goals simp_all
  exact consumePhase_ok _ _ _ h

/-- Helper: a successful attempt returns the attempt's success value. -/
theorem runAttempt_ok (env : AttemptEnv) (a : Attempt) (s : VerifySuccess)
    (h : (runAttempt env a).1 = .ok s) : s = attemptSuccess a := by
  unfold runAttempt at h
  repeat' split at h
  all_goals simp_all
  all_goals exact cryptoPhase_ok _ _ _ _ h

/-- Claim C4: for integer `created < expires` and clock skew 0, the time
check fails with `not_yet_valid` at `now = created - 1`, fails with `expired`
at `now = expires + 1`, and passes (returns no failure) at any
`now ∈ [created, expires]` whenever `expires - created` is at most
`maxValiditySec` (default 300). -/
theorem c4_time_window_checks (created expires now : Int)
    (maxValiditySec : Option Int) (hlt : created < expires) :
    runTimeChecks ⟨created - 1, 0, maxValiditySec, some created, some expires⟩
        = some ⟨.not_yet_valid, none⟩ ∧
    runTimeChecks ⟨expires + 1, 0, maxValiditySec, some created, some expires⟩
        = some ⟨.expired, none⟩ ∧
    (created ≤ now → now ≤ expires →
      expires - created ≤ maxValiditySec.getD DEFAULT_MAX_VALIDITY_SEC →
      runTimeChecks ⟨now, 0, maxValiditySec, some created, some expires⟩ = none) := by
  unfold runTimeChecks
  refine ⟨?_, ?_, fun h1 h2 h3 => ?_⟩ <;> simp only [] <;> split_ifs <;>
    first | rfl | omega

/-- Witness for C4 at `created = 100`, `expires = 200`, `now = 150`, default
`maxValiditySec`. -/
theorem c4_time_window_checks_witness :
    runTimeChecks ⟨99, 0, none, some 100, some 200⟩ = some ⟨.not_yet_valid, none⟩ ∧
    runTimeChecks ⟨201, 0, none, some 100, some 200⟩ = some ⟨.expired, none⟩ ∧
    runTimeChecks ⟨150, 0, none, some 100, some 200⟩ = none := by
  have h := c4_time_window_checks 100 200 150 none (by decide)
  exact ⟨h.1, h.2.1, h.2.2 (by decide) (by decide) (by decide)⟩

/-- Claim C7 (failing input): in mode `require`, with a `Content-Digest`
header already present, `setContentDigestHeader` does not leave the request
alone — it reads the body, computes SHA-256 (second component `true`), and
overwrites the existing header value, contradicting its own documentation
("require": …does not compute). -/
theorem c7_require_recomputes_existing_digest :
    setContentDigestHeader exHash exDigestRequest .require
      = .ok ({ exDigestRequest with
                headers := [("content-digest",
                  "sha-256=:AAAAAAAAAAAAAAAAAAAAAAAAAAAAAAAAAAAAAAAAAAA=:")] }, true) := by
  decide

/-- Claim C1 (counterexample): a verification call whose attempt set contains
a class-bound attempt (header position 1) and a request-bound attempt
(header position 2) tries — and succeeds on — the class-bound attempt first;
request-bound attempts are not tried before class-bound ones. -/
theorem c1_header_order_counterexample :
    selectSignatureFromHeaders exOrderingSigInput exOrderingSig none none
        = .ok [exClassCandidate, exRequestCandidate] ∧
    (buildAttempts [⟨exClassCandidate, exKey⟩, ⟨exRequestCandidate, exKey⟩]
        exOrderingOptions).1.map (·.kind) = [.classBound, .requestBound] ∧
    (verifyRequest exOrderingRequest exVerifyTrue exStoreTrue exOrderingPolicy 0 exHash).1
        = .ok (.ok ⟨"0xaaaaaaaaaaaaaaaaaaaaaaaaaaaaaaaaaaaaaaaa", 1, "class",
            ["@authority"], exParamsN1, false, .classBound⟩) := by
  refine ⟨by decide, by decide, by decide⟩

/-- Claim C2 (counterexample): `verifyRequest` can throw.  With well-formed
headers whose single candidate covers the header field `x-missing`, absent
from the request, signature-base construction raises `BAD_HEADER_VALUE` and
the exception propagates out of `verifyRequest` instead of being returned as
a tagged result. -/
theorem c2_throw_counterexample :
    (verifyRequest exMissingHeaderRequest exVerifyTrue exStoreTrue exNowPolicy 0 exHash).1
      = .error ⟨.BAD_HEADER_VALUE, "Required header \"x-missing\" is missing."⟩ := by
  decide

/-- Claim C3: for every attempt, (i) if the nonce store was consulted, the
external verifier had been called and returned `true`; (ii) an attempt that
fails for any reason other than `replay` (time, nonce plan, digest, and
crypto failures included) never consumes a nonce; (iii) whenever a consume
call returns `false` the attempt fails with reason `replay`. -/
theorem c3_consume_only_after_crypto :
    (∀ env a, (runAttempt env a).2.consumeCalls ≠ [] →
        (runAttempt env a).2.verifyCalls = [some true]) ∧
    (∀ env a f, (runAttempt env a).1 = .fail f → f.reason ≠ .replay →
        (runAttempt env a).2.consumeCalls = []) ∧
    (∀ env a k t, (k, t, false) ∈ (runAttempt env a).2.consumeCalls →
        (runAttempt env a).1 = .fail ⟨.replay, none⟩) := by
  refine ⟨fun env a hne => ?_, fun env a f hf hner => ?_, fun env a k t hmem => ?_⟩
  · rcases runAttempt_shape env a with ⟨h, _⟩ | ⟨k, t, h, _⟩ | ⟨k, t, h, _⟩
    · exact absurd h hne
    · rw [h]
    · rw [h]
  · rcases runAttempt_shape env a with ⟨h, _⟩ | ⟨k, t, h, ho⟩ | ⟨k, t, h, ho⟩
    · exact h
    · rw [ho] at hf; cases hf
    · rw [ho] at hf
      cases hf
      simp at hner
  · rcases runAttempt_shape env a with ⟨h, _⟩ | ⟨k', t', h, ho⟩ | ⟨k', t', h, ho⟩
    · rw [h] at hmem; cases hmem
    · rw [h] at hmem; simp at hmem
    · exact ho

/-- Witness for C3: in an environment whose store reports the key as already
used, the attempt's single verify call returned `true` and the attempt fails
with `replay`. -/
theorem c3_witness :
    (runAttempt exReplayEnv exReplayAttempt).1 = .fail ⟨.replay, none⟩ ∧
    (runAttempt exReplayEnv exReplayAttempt).2.verifyCalls = [some true] := by
  constructor
  · exact c3_consume_only_after_crypto.2.2 exReplayEnv exReplayAttempt
      (exKeyId ++ ":n1") 50 (by decide)
  · exact c3_consume_only_after_crypto.1 exReplayEnv exReplayAttempt (by decide)

/-- Claim C10: a present-but-empty nonce parameter is treated exactly like an
absent one: `runNonceChecks` returns the same result, the default policy
fails it with `replayable_not_allowed`, allowing replayable signatures passes
it with the empty plan, the attempt never touches the nonce store, and a
success over it reports `replayable := true`. -/
theorem c10_empty_nonce_like_no_nonce :
    (∀ o : NonceCheckArgs, o.params.nonce = some "" →
        runNonceChecks o
          = runNonceChecks { o with params := { o.params with nonce := none } }) ∧
    (∀ o : NonceCheckArgs, o.params.nonce = some "" → o.allowReplayable = false →
        runNonceChecks o = (some ⟨.replayable_not_allowed, none⟩, emptyNoncePlan)) ∧
    (∀ o : NonceCheckArgs, o.params.nonce = some "" → o.allowReplayable = true →
        runNonceChecks o = (none, emptyNoncePlan)) ∧
    (∀ env a, a.candidate.candidate.params.nonce = some "" →
        (runAttempt env a).2.consumeCalls = []) ∧
    (∀ env a s, a.candidate.candidate.params.nonce = some "" →
        (runAttempt env a).1 = .ok s → s.replayable = true) := by
  refine ⟨fun o h => ?_, fun o h har => ?_, fun o h har => ?_,
          fun env a h => ?_, fun env a s h hok => ?_⟩
  · rw [runNonceChecks_emptyish o (Or.inl h),
        runNonceChecks_emptyish { o with params := { o.params with nonce := none } }
          (Or.inr rfl)]
  · rw [runNonceChecks_emptyish o (Or.inl h), har]; rfl
  · rw [runNonceChecks_emptyish o (Or.inl h), har]; rfl
  · have hcp : (cryptoPhase env a emptyNoncePlan).2.consumeCalls = [] :=
      cryptoPhase_plan_none env a emptyNoncePlan rfl
    unfold runAttempt
    rw [runNonceChecks_emptyish _ (Or.inl h)]
    by_cases har : env.allowReplayable = true
    · rw [if_pos har]
      repeat' split
      all_goals try rfl
      all_goals simp_all
    · rw [if_neg har]
      split <;> rfl
  · have hs := runAttempt_ok env a s hok
    subst hs
    unfold attemptSuccess
    rw [h]
    rfl

/-- Witness for C10 at a concrete empty-nonce candidate: default policy
rejects with `replayable_not_allowed`; with replayable allowed the attempt
makes no consume call and any success reports `replayable := true`. -/
theorem c10_witness :
    runNonceChecks exEmptyNonceArgs
      = (some ⟨.replayable_not_allowed, none⟩, emptyNoncePlan) ∧
    (runAttempt exReplayableEnv exEmptyNonceAttempt).2.consumeCalls = [] ∧
    ∀ s, (runAttempt exReplayableEnv exEmptyNonceAttempt).1 = .ok s →
        s.replayable = true := by
  refine ⟨c10_empty_nonce_like_no_nonce.2.1 _ rfl rfl,
          c10_empty_nonce_like_no_nonce.2.2.2.1 _ _ rfl,
          fun s hs => c10_empty_nonce_like_no_nonce.2.2.2.2 _ _ s rfl hs⟩

/-- Claim C9: when both headers parse but no Signature-Input member's label
has a same-labeled Signature member, `verifyRequest` returns
`{ok:false, reason:"label_not_found"}` — for every policy, including one with
no label preference and no strictLabel. -/
theorem c9_no_matching_label (request : HttpRequest)
    (vm : Option (String → String → String → Option Bool))
    (ns : Option (String → Int → Bool)) (policy : VerifyPolicyM) (sysNow : Int)
    (hash : List Nat → List Nat) (si sv : String)
    (inputs : List ParsedSignatureInputMember) (sigs : List (String × String))
    (hsi : headerGet request "Signature-Input" = some si)
    (hsv : headerGet request "Signature" = some sv)
    (hsiNe : ¬ si = "") (hsvNe : ¬ sv = "")
    (hpi : parseSignatureInputDictionary si = .ok inputs)
    (hps : parseSignatureDictionary sv = .ok sigs)
    (hnone : ∀ cand ∈ inputs, sigMapGet sigs cand.label = none) :
    (verifyRequest request vm ns policy sysNow hash).1
      = .ok (.err ⟨.label_not_found, none⟩) := by
  have hsel : selectSignatureFromHeaders si sv policy.label policy.strictLabel
      = .err ⟨.label_not_found, none⟩ := by
    unfold selectSignatureFromHeaders
    rw [hpi, hps]
    have hfm : inputs.filterMap (fun cand =>
        (sigMapGet sigs cand.label).map (fun s =>
          ({ label := cand.label, components := cand.components,
             params := cand.params,
             signatureParamsValue := cand.signatureParamsValue,
             sigB64 := s } : SelectedSignature))) = [] := by
      rw [List.filterMap_eq_nil_iff]
      intro cand hc
      rw [hnone cand hc]
      rfl
    simp only [hfm, List.isEmpty_nil, if_true]
  unfold verifyRequest
  simp only [hsi, hsv]
  rw [if_neg (by simp [hsiNe, hsvNe]), hsel]

/-- Witness for C9: a request whose Signature-Input label `sig` has only an
`other` entry in the Signature header, under the empty policy. -/
theorem c9_witness :
    (verifyRequest exLabelMismatchRequest exVerifyTrue exStoreTrue {} 0 exHash).1
      = .ok (.err ⟨.label_not_found, none⟩) := by
  refine c9_no_matching_label exLabelMismatchRequest exVerifyTrue exStoreTrue {} 0 exHash
    ("sig=(\"@authority\" \"@method\" \"@path\");created=100;expires=200;keyid=\"" ++
      exKeyId ++ "\"")
    "other=:AAAA:"
    [{ label := "sig", components := ["@authority", "@method", "@path"],
       params := { created := 100, expires := 200, keyid := exKeyId },
       signatureParamsValue :=
         "(\"@authority\" \"@method\" \"@path\");created=100;expires=200;keyid=\"" ++
           exKeyId ++ "\"" }]
    [("other", "AAAA")]
    (by decide) (by decide) (by decide) (by decide) (by decide) (by decide) ?_
  decide

/-- Claim C2 (amended): parse errors during header parsing are caught and
surfaced as `bad_signature_input` (with the parse error message as detail)
rather than propagated — unparseable headers never throw; the exception-free
guarantee does not extend past parsing (see the counterexample). -/
theorem c2_amended_parse_errors_caught
    (request : HttpRequest)
    (vm : Option (String → String → String → Option Bool))
    (ns : Option (String → Int → Bool)) (policy : VerifyPolicyM) (sysNow : Int)
    (hash : List Nat → List Nat) (si sv : String) (e : Erc8128Err)
    (hsi : headerGet request "Signature-Input" = some si)
    (hsv : headerGet request "Signature" = some sv)
    (hsiNe : ¬ si = "") (hsvNe : ¬ sv = "")
    (hfail : parseSignatureInputDictionary si = .error e ∨
      (∃ inputs, parseSignatureInputDictionary si = .ok inputs ∧
        parseSignatureDictionary sv = .error e)) :
    (verifyRequest request vm ns policy sysNow hash).1
      = .ok (.err ⟨.bad_signature_input, some e.message⟩) := by
  have hsel : selectSignatureFromHeaders si sv policy.label policy.strictLabel
      = .err ⟨.bad_signature_input, some e.message⟩ := by
    unfold selectSignatureFromHeaders
    rcases hfail with h | ⟨inputs, hok, herr⟩
    · rw [h]
    · rw [hok, herr]
  unfold verifyRequest
  simp only [hsi, hsv]
  rw [if_neg (by simp [hsiNe, hsvNe]), hsel]

/-- Witness for C2 (amended): `Signature-Input: not-a-dictionary` yields
`bad_signature_input` without throwing. -/
theorem c2_amended_parse_errors_caught_witness :
    (verifyRequest exNotADictionaryRequest exVerifyTrue exStoreTrue {} 0 exHash).1
      = .ok (.err ⟨.bad_signature_input,
          some "Invalid Signature-Input member (missing =)."⟩) := by
  exact c2_amended_parse_errors_caught exNotADictionaryRequest exVerifyTrue exStoreTrue
    {} 0 exHash "not-a-dictionary" "x=:AAAA:"
    ⟨.PARSE_ERROR, "Invalid Signature-Input member (missing =)."⟩
    (by decide) (by decide) (by decide) (by decide) (Or.inl (by decide))


/-- Helper: one attempt calls the external verifier at most once. -/
theorem runAttempt_verifyCalls_le_one (env : AttemptEnv) (a : Attempt) :
    (runAttempt env a).2.verifyCalls.length ≤ 1 := by
  rcases runAttempt_shape env a with ⟨_, h⟩ | ⟨k, t, h, _⟩ | ⟨k, t, h, _⟩ <;>
    first | exact h | (rw [h]; exact le_refl 1)

/-- Helper: the loop processes at most `maxV - tried` further attempts. -/
theorem verifyLoop_trace_bound (env : AttemptEnv) (maxV : Int) :
    ∀ (attempts : List Attempt) (tried : Nat) (last : FailRes)
      (trace : List TraceEntry),
    (verifyLoop env maxV attempts tried last trace).2.length
      ≤ trace.length + (maxV - tried).toNat := by
  intro attempts
  induction attempts with
  | nil => intro tried last trace; simp [verifyLoop]
  | cons a rest ih =>
    intro tried last trace
    unfold verifyLoop
    split
    · simp
    · rename_i hge
      split
      · simp only [List.length_append, List.length_singleton]
        omega
      · simp only [List.length_append, List.length_singleton]
        omega
      · refine le_trans (ih (tried + 1) _ (trace ++ [⟨a.kind, _⟩])) ?_
        simp only [List.length_append, List.length_singleton]
        omega

/-- Helper: every trace entry the loop appends records at most one verify
call. -/
theorem verifyLoop_trace_entries (env : AttemptEnv) (maxV : Int) :
    ∀ (attempts : List Attempt) (tried : Nat) (last : FailRes)
      (trace : List TraceEntry),
    (∀ t ∈ trace, t.log.verifyCalls.length ≤ 1) →
    ∀ t ∈ (verifyLoop env maxV attempts tried last trace).2,
      t.log.verifyCalls.length ≤ 1 := by
  intro attempts
  induction attempts with
  | nil => intro tried last trace h; simpa [verifyLoop] using h
  | cons a rest ih =>
    intro tried last trace h
    unfold verifyLoop
    split
    · exact h
    · rename_i hge
      have hx : ∀ t ∈ trace ++ [(⟨a.kind, (runAttempt env a).2⟩ : TraceEntry)],
          t.log.verifyCalls.length ≤ 1 := by
        intro t ht
        rcases List.mem_append.mp ht with h1 | h2
        · exact h t h1
        · rcases List.mem_singleton.mp h2 with rfl
          exact runAttempt_verifyCalls_le_one env a
      split
      · rename_i s log heq
        intro t ht
        refine hx t ?_
        rw [show log = (runAttempt env a).2 from by rw [heq]] at ht
        exact ht
      · rename_i e log heq
        intro t ht
        refine hx t ?_
        rw [show log = (runAttempt env a).2 from by rw [heq]] at ht
        exact ht
      · rename_i f log heq
        refine ih (tried + 1) f _ ?_
        intro t ht
        refine hx t ?_
        rw [show log = (runAttempt env a).2 from by rw [heq]] at ht
        exact ht

/-- Helper: with at most one verify call per entry, the total number of
verify calls is bounded by the number of entries. -/
theorem countVerifyCalls_le_length (trace : List TraceEntry)
    (h : ∀ t ∈ trace, t.log.verifyCalls.length ≤ 1) :
    countVerifyCalls trace ≤ trace.length := by
  unfold countVerifyCalls
  calc (trace.map (fun t => t.log.verifyCalls.length)).sum
      ≤ (trace.map (fun t => t.log.verifyCalls.length)).length • 1 := by
        refine List.sum_le_card_nsmul _ 1 ?_
        intro x hx
        rcases List.mem_map.mp hx with ⟨t, ht, rfl⟩
        exact h t ht
    _ = trace.length := by simp

/-- Claim C6: a verification call processes at most
`maxSignatureVerifications` attempts — the resolved cap, which is 3 whenever
the policy supplies no value or a non-positive one — and therefore invokes
the external `verifyMessage` at most that many times, regardless of how many
signature labels the request carries. -/
theorem c6_bounded_attempts (request : HttpRequest)
    (vm : Option (String → String → String → Option Bool))
    (ns : Option (String → Int → Bool)) (policy : VerifyPolicyM) (sysNow : Int)
    (hash : List Nat → List Nat) :
    (verifyRequest request vm ns policy sysNow hash).2.length
        ≤ (resolveMaxSignatureVerifications policy.maxSignatureVerifications).toNat ∧
    countVerifyCalls (verifyRequest request vm ns policy sysNow hash).2
        ≤ (resolveMaxSignatureVerifications policy.maxSignatureVerifications).toNat ∧
    (policy.maxSignatureVerifications = none →
        resolveMaxSignatureVerifications policy.maxSignatureVerifications = 3) ∧
    (∀ q, policy.maxSignatureVerifications = some q → ¬ 0 < q →
        resolveMaxSignatureVerifications policy.maxSignatureVerifications = 3) := by
  refine ⟨?_, ?_, fun h => by rw [h]; rfl,
          fun q h hq => by simp [resolveMaxSignatureVerifications, h, hq,
            DEFAULT_MAX_SIGNATURE_VERIFICATIONS]⟩
  · unfold verifyRequest
    simp only []
    repeat' split
    all_goals try (exact Nat.zero_le _)
    exact le_trans (verifyLoop_trace_bound _ _ _ 0 _ []) (by simp)
  · unfold verifyRequest
    simp only []
    repeat' split
    all_goals try (exact Nat.zero_le _)
    refine le_trans (countVerifyCalls_le_length _
        (verifyLoop_trace_entries _ _ _ 0 _ [] (by simp))) ?_
    exact le_trans (verifyLoop_trace_bound _ _ _ 0 _ []) (by simp)


/-- Witness for C6 at the ordering scenario with the default cap: at most 3
attempts and verify calls, and the cap resolves to 3. -/
theorem c6_bounded_attempts_witness :
    (verifyRequest exOrderingRequest exVerifyTrue exStoreTrue exOrderingPolicy 0 exHash).2.length
      ≤ 3 ∧
    countVerifyCalls
      (verifyRequest exOrderingRequest exVerifyTrue exStoreTrue exOrderingPolicy 0 exHash).2
        ≤ 3 ∧
    resolveMaxSignatureVerifications none = 3 := by
  have h := c6_bounded_attempts exOrderingRequest exVerifyTrue exStoreTrue
    exOrderingPolicy 0 exHash
  exact ⟨h.1, h.2.1, h.2.2.1 rfl⟩

/-- Helper: `buildAttempts` is a per-candidate filterMap — classification
keeps the original candidate (header) order and never reorders. -/
theorem buildAttempts_eq_filterMap (cands : List VerifyCandidate)
    (options : BuildAttemptsOptions) :
    (buildAttempts cands options).1 = cands.filterMap (classifyCandidate options) := by
  induction cands with
  | nil => rfl
  | cons e rest ih =>
    simp only [buildAttempts, classifyCandidate, List.filterMap_cons]
    split_ifs <;> simp [ih]

/-- Helper: the loop's trace is a front-to-back prefix of the attempt list
(by kind); attempts are tried exactly in list order. -/
theorem verifyLoop_trace_kinds (env : AttemptEnv) (maxV : Int) :
    ∀ (attempts : List Attempt) (tried : Nat) (last : FailRes)
      (trace : List TraceEntry),
    ∃ n, (verifyLoop env maxV attempts tried last trace).2.map (·.kind)
      = trace.map (·.kind) ++ (attempts.map (·.kind)).take n := by
  intro attempts
  induction attempts with
  | nil => intro tried last trace; exact ⟨0, by simp [verifyLoop]⟩
  | cons a rest ih =>
    intro tried last trace
    unfold verifyLoop
    split
    · exact ⟨0, by simp⟩
    · split
      · exact ⟨1, by simp⟩
      · exact ⟨1, by simp⟩
      · rename_i f log heq
        obtain ⟨n, hn⟩ := ih (tried + 1) f (trace ++ [⟨a.kind, log⟩])
        refine ⟨n + 1, ?_⟩
        rw [hn]
        simp

/-- Claim C1 (amended): attempts are tried in the order their candidates
appear in the Signature-Input header — `buildAttempts` classifies each
candidate in place (a filterMap preserving header order), and the
verification loop tries the resulting attempt list front to back; binding
kind and matching-policy length play no role in the ordering. -/
theorem c1_amended_header_order :
    (∀ (cands : List VerifyCandidate) (options : BuildAttemptsOptions),
        (buildAttempts cands options).1 = cands.filterMap (classifyCandidate options)) ∧
    (∀ (env : AttemptEnv) (maxV : Int) (attempts : List Attempt) (last : FailRes),
        ∃ n, (verifyLoop env maxV attempts 0 last []).2.map (·.kind)
          = (attempts.map (·.kind)).take n) := by
  constructor
  · exact buildAttempts_eq_filterMap
  · intro env maxV attempts last
    obtain ⟨n, hn⟩ := verifyLoop_trace_kinds env maxV attempts 0 last []
    exact ⟨n, by simpa using hn⟩


/-- Helper: `Except` bind on `ok`. -/
theorem exbind_ok {α β : Type} (x : α) (f : α → Except Erc8128Err β) :
    (Except.ok x >>= f) = f x := rfl

/-- Helper: `Except` bind on `error`. -/
theorem exbind_error {α β : Type} (e : Erc8128Err) (f : α → Except Erc8128Err β) :
    ((Except.error e : Except Erc8128Err α) >>= f) = .error e := rfl

/-- Helper: `Except.map` on `ok`. -/
theorem exmap_ok {α β : Type} (x : α) (f : α → β) :
    ((Except.ok x : Except Erc8128Err α).map f) = .ok (f x) := rfl

/-- Helper: `Except.map` on `error`. -/
theorem exmap_error {α β : Type} (e : Erc8128Err) (f : α → β) :
    ((Except.error e : Except Erc8128Err α).map f) = .error e := rfl

/-- Helper: functorial map on `ok`. -/
theorem exfmap_ok {α β : Type} (x : α) (f : α → β) :
    (f <$> (Except.ok x : Except Erc8128Err α)) = .ok (f x) := rfl

/-- Helper: functorial map on `error`. -/
theorem exfmap_error {α β : Type} (e : Erc8128Err) (f : α → β) :
    (f <$> (Except.error e : Except Erc8128Err α)) = .error e := rfl

/-- Helper: `pure` for `Except` is `ok`. -/
theorem expure {α : Type} (x : α) :
    (pure x : Except Erc8128Err α) = .ok x := rfl

/-- Helper: `contains` is `false` for a non-member. -/
theorem contains_eq_false_of_not_mem (l : List String) (a : String)
    (h : a ∉ l) : l.contains a = false := by
  rw [Bool.eq_false_iff]
  intro hc
  exact h (List.elem_iff.mp hc)

/-- Claim C8 (counterexample): two acceptable policies covering the same SET
of components (`{@authority, @method, @path}` in different orders) yield two
`Accept-Signature` entries, not one — deduplication is not by component-set
identity. -/
theorem c8_set_dedup_counterexample :
    buildAcceptSignatureHeader ["@authority", "@method", "@path"]
        [["@method", "@authority", "@path"]] true
      = .ok ("sig1=(\"@authority\" \"@method\" \"@path\");keyid;created;expires;nonce, " ++
             "sig2=(\"@method\" \"@authority\" \"@path\");keyid;created;expires;nonce") ∧
    List.Perm ["@method", "@authority", "@path"] ["@authority", "@method", "@path"] := by
  exact ⟨by decide, by decide⟩

/-- Helper: `addEntry` on an unseen key serializes and appends one entry. -/
theorem addAcceptEntry_not_seen (rn : Bool) (entries seen : List String) (idx : Nat)
    (c : List String) (h : seen.contains (nulJoin c) = false) :
    addAcceptEntry rn (entries, seen, idx) c
      = (serializeAcceptSignatureValue c rn).map
          (fun v => (entries ++ ["sig" ++ Nat.repr idx ++ "=" ++ v],
                     seen ++ [nulJoin c], idx + 1)) := by
  unfold addAcceptEntry
  simp only [h, Bool.false_eq_true, if_false]
  cases hser : serializeAcceptSignatureValue c rn <;>
    simp [hser, exbind_ok, exbind_error, exmap_ok, exmap_error]

/-- Helper: `addEntry` on a seen key is a no-op. -/
theorem addAcceptEntry_seen (rn : Bool) (st : List String × List String × Nat)
    (c : List String) (h : st.2.1.contains (nulJoin c) = true) :
    addAcceptEntry rn st c = .ok st := by
  unfold addAcceptEntry
  simp only [h, if_true]

/-- Helper: folding `addEntry` over policies with pairwise-distinct joined
keys appends one numbered entry per policy, in order. -/
theorem addAcceptFold (rn : Bool) :
    ∀ (lists : List (List String)) (entries seen : List String) (idx : Nat),
    (∀ l ∈ lists, nulJoin l ∉ seen) → (lists.map nulJoin).Nodup →
    lists.foldlM (addAcceptEntry rn) (entries, seen, idx)
      = (acceptEntriesAll rn lists idx).map
          (fun es => (entries ++ es, seen ++ lists.map nulJoin, idx + lists.length)) := by
  intro lists
  induction lists with
  | nil =>
    intro entries seen idx _ _
    simp [acceptEntriesAll, exmap_ok, expure]
  | cons c rest ih =>
    intro entries seen idx hnot hnd
    have hcontains : seen.contains (nulJoin c) = false :=
      contains_eq_false_of_not_mem _ _ (hnot c (List.mem_cons_self c rest))
    rw [List.foldlM_cons, addAcceptEntry_not_seen rn entries seen idx c hcontains]
    simp only [acceptEntriesAll]
    cases hser : serializeAcceptSignatureValue c rn with
    | error e => simp [hser, exmap_error, exbind_error]
    | ok v =>
      simp only [hser, exmap_ok, exbind_ok]
      rw [ih (entries ++ ["sig" ++ Nat.repr idx ++ "=" ++ v]) (seen ++ [nulJoin c]) (idx + 1)
        (by
          intro l hl
          simp only [List.mem_append, List.mem_singleton]
          rintro (h1 | h2)
          · exact hnot l (List.mem_cons_of_mem c hl) h1
          · rcases List.nodup_cons.mp hnd with ⟨hni, _⟩
            exact hni (h2 ▸ List.mem_map_of_mem nulJoin hl))
        (List.nodup_cons.mp hnd).2]
      cases hall : acceptEntriesAll rn rest (idx + 1) with
      | error e => simp [hall, exmap_error, exbind_error]
      | ok tail =>
        simp only [hall, exmap_ok, exbind_ok, exfmap_ok, expure]
        simp [Prod.ext_iff]
        omega


/-- Helper: `contains` is `true` for a member. -/
theorem contains_eq_true_of_mem (l : List String) (a : String) (h : a ∈ l) :
    l.contains a = true := List.elem_iff.mpr h

/-- Claim C8 (amended): the `Accept-Signature` header has one
`sigN=(components);keyid;created;expires[;nonce]` entry per acceptable
policy, the request-bound required set first and then each configured
class-bound policy in order, deduplicated by exact component-sequence
identity (an identical component list collapses; the same set in a different
order does not), and the `nonce` parameter is appended exactly when
replayable signatures are not allowed. -/
theorem c8_amended_accept_header :
    (∀ (requestBoundRequired : List String)
       (classBoundPolicies : List (List String)) (rn : Bool),
      ((requestBoundRequired :: classBoundPolicies).map nulJoin).Nodup →
      buildAcceptSignatureHeader requestBoundRequired classBoundPolicies rn
        = (acceptEntriesAll rn (requestBoundRequired :: classBoundPolicies) 1).map
            (String.intercalate ", ")) ∧
    (∀ rb cbs rn, buildAcceptSignatureHeader rb (rb :: cbs) rn
        = buildAcceptSignatureHeader rb cbs rn) ∧
    (∀ comps, serializeAcceptSignatureValue comps true
        = (serializeAcceptSignatureValue comps false).map (· ++ ";nonce")) := by
  refine ⟨fun rb cbs rn hnd => ?_, fun rb cbs rn => ?_, fun comps => ?_⟩
  · rw [List.map_cons] at hnd
    obtain ⟨hni, hrest⟩ := List.nodup_cons.mp hnd
    unfold buildAcceptSignatureHeader
    rw [addAcceptEntry_not_seen rn [] [] 1 rb rfl]
    cases hser : serializeAcceptSignatureValue rb rn with
    | error e => simp [hser, exmap_error, exbind_error, acceptEntriesAll]
    | ok v =>
      simp only [hser, exmap_ok, exbind_ok, List.nil_append]
      rw [addAcceptFold rn cbs ["sig" ++ Nat.repr 1 ++ "=" ++ v] [nulJoin rb] 2
        (by
          intro l hl
          simp only [List.mem_singleton]
          intro heq
          exact hni (heq ▸ List.mem_map_of_mem nulJoin hl))
        hrest]
      simp only [acceptEntriesAll, hser, exbind_ok]
      cases hall : acceptEntriesAll rn cbs 2 with
      | error e => simp [hall, exmap_error, exbind_error]
      | ok tail => simp [hall, exmap_ok, exbind_ok, exfmap_ok, expure]
  · unfold buildAcceptSignatureHeader
    rw [addAcceptEntry_not_seen rn [] [] 1 rb rfl]
    cases hser : serializeAcceptSignatureValue rb rn with
    | error e => simp [hser, exmap_error, exbind_error]
    | ok v =>
      simp only [hser, exmap_ok, exbind_ok, List.foldlM_cons, List.nil_append]
      rw [addAcceptEntry_seen rn _ rb
        (contains_eq_true_of_mem _ _ (List.mem_singleton.mpr rfl))]
      simp [exbind_ok]
  · unfold serializeAcceptSignatureValue
    cases hm : comps.mapM quoteSfString with
    | error e => simp [hm, exmap_error, exbind_error]
    | ok quoted =>
      simp [hm, exmap_ok, exbind_ok, expure]

/-- Witness for C8 (amended) at a concrete policy configuration. -/
theorem c8_amended_witness :
    buildAcceptSignatureHeader ["@authority", "@method", "@path"] [["@authority"]] true
      = .ok ("sig1=(\"@authority\" \"@method\" \"@path\");keyid;created;expires;nonce, " ++
             "sig2=(\"@authority\");keyid;created;expires;nonce") := by
  have h := c8_amended_accept_header.1 ["@authority", "@method", "@path"]
    [["@authority"]] true (by decide)
  rw [h]
  decide


/-- Helper: character order is code-point order. -/
theorem char_le_iff (a b : Char) : a ≤ b ↔ a.toNat ≤ b.toNat := Char.le_def

/-- Helper: `Char.ofNat` below the surrogate range round-trips `toNat`. -/
theorem toNat_ofNat_small (n : Nat) (h : n < 55296) : (Char.ofNat n).toNat = n := by
  unfold Char.ofNat
  rw [dif_pos (Or.inl h)]
  unfold Char.ofNatAux Char.toNat
  show (BitVec.ofNatLt n _).toNat = n
  simp [BitVec.toNat_ofNatLt]

/-- Helper: arithmetic characterization of the hex-digit class. -/
theorem isHexChar_iff (c : Char) :
    isHexChar c = true ↔
      (48 ≤ c.toNat ∧ c.toNat ≤ 57) ∨ (97 ≤ c.toNat ∧ c.toNat ≤ 102) ∨
        (65 ≤ c.toNat ∧ c.toNat ≤ 70) := by
  unfold isHexChar
  simp only [Bool.or_eq_true, Bool.and_eq_true, decide_eq_true_eq, char_le_iff,
    show ('0').toNat = 48 from rfl, show ('9').toNat = 57 from rfl,
    show ('a').toNat = 97 from rfl, show ('f').toNat = 102 from rfl,
    show ('A').toNat = 65 from rfl, show ('F').toNat = 70 from rfl]
  tauto

/-- Helper: arithmetic characterization of the digit class. -/
theorem isDigitChar_iff (c : Char) :
    isDigitChar c = true ↔ 48 ≤ c.toNat ∧ c.toNat ≤ 57 := by
  unfold isDigitChar
  simp only [Bool.and_eq_true, decide_eq_true_eq, char_le_iff,
    show ('0').toNat = 48 from rfl, show ('9').toNat = 57 from rfl]

/-- Helper: lower-casing fixes non-uppercase characters. -/
theorem asciiLower_of_not_upper (c : Char) (h : ¬(65 ≤ c.toNat ∧ c.toNat ≤ 90)) :
    asciiLower c = c := by
  unfold asciiLower
  rw [if_neg]
  intro hc
  rcases hc with ⟨h1, h2⟩
  rw [char_le_iff, show ('A').toNat = 65 from rfl] at h1
  rw [char_le_iff, show ('Z').toNat = 90 from rfl] at h2
  exact h ⟨h1, h2⟩

/-- Helper: lower-casing an uppercase letter adds 32 to the code point. -/
theorem asciiLower_toNat_of_upper (c : Char) (h : 65 ≤ c.toNat ∧ c.toNat ≤ 90) :
    (asciiLower c).toNat = c.toNat + 32 := by
  unfold asciiLower
  rw [if_pos ⟨(char_le_iff _ _).mpr (by rw [show ('A').toNat = 65 from rfl]; exact h.1),
              (char_le_iff _ _).mpr (by rw [show ('Z').toNat = 90 from rfl]; exact h.2)⟩]
  exact toNat_ofNat_small _ (by omega)

/-- Helper: lower-casing maps hex digits to hex digits, idempotently. -/
theorem asciiLower_hex_facts (c : Char) (h : isHexChar c = true) :
    isHexChar (asciiLower c) = true ∧ asciiLower (asciiLower c) = asciiLower c := by
  rw [isHexChar_iff] at h
  rcases h with h | h | h
  · have heq : asciiLower c = c := asciiLower_of_not_upper c (by omega)
    rw [heq, heq, isHexChar_iff]
    exact ⟨Or.inl h, rfl⟩
  · have heq : asciiLower c = c := asciiLower_of_not_upper c (by omega)
    rw [heq, heq, isHexChar_iff]
    exact ⟨Or.inr (Or.inl h), rfl⟩
  · have htn : (asciiLower c).toNat = c.toNat + 32 := asciiLower_toNat_of_upper c (by omega)
    constructor
    · rw [isHexChar_iff]
      exact Or.inr (Or.inl (by omega))
    · exact asciiLower_of_not_upper (asciiLower c) (by omega)

/-- Helper: value of a digit string extended by one digit. -/
theorem dval_append (l : List Char) (c : Char) :
    dval (l ++ [c]) = 10 * dval l + (c.toNat - 48) := by
  unfold dval
  rw [List.foldl_append]
  rfl

/-- Helper: `Nat.digitChar` below 10 produces the matching decimal digit. -/
theorem digitChar_facts (r : Nat) (h : r < 10) :
    isDigitChar (Nat.digitChar r) = true ∧ (Nat.digitChar r).toNat - 48 = r := by
  interval_cases r <;> exact ⟨by decide, by decide⟩

/-- Helper: correctness of the decimal printer behind `Nat.repr`: with
sufficient fuel it emits a nonempty digit string whose value is the input. -/
theorem toDigitsCore_spec :
    ∀ (f n : Nat) (ds : List Char), n < f →
    ∃ xs, Nat.toDigitsCore 10 f n ds = xs ++ ds ∧ xs ≠ [] ∧
      (∀ c ∈ xs, isDigitChar c = true) ∧ dval xs = n := by
  intro f
  induction f with
  | zero => intro n ds h; omega
  | succ f ih =>
    intro n ds h
    rw [show Nat.toDigitsCore 10 (f + 1) n ds
        = (if n / 10 = 0 then Nat.digitChar (n % 10) :: ds
           else Nat.toDigitsCore 10 f (n / 10) (Nat.digitChar (n % 10) :: ds)) from rfl]
    have hmod : n % 10 < 10 := Nat.mod_lt _ (by norm_num)
    by_cases h0 : n / 10 = 0
    · rw [if_pos h0]
      refine ⟨[Nat.digitChar (n % 10)], rfl, by simp, ?_, ?_⟩
      · intro c hc
        rcases List.mem_singleton.mp hc with rfl
        exact (digitChar_facts _ hmod).1
      · show dval ([] ++ [Nat.digitChar (n % 10)]) = n
        rw [dval_append, (digitChar_facts _ hmod).2]
        unfold dval
        simp
        omega
    · rw [if_neg h0]
      obtain ⟨xs, hxe, hne, hdig, hval⟩ :=
        ih (n / 10) (Nat.digitChar (n % 10) :: ds) (by omega)
      refine ⟨xs ++ [Nat.digitChar (n % 10)], by rw [hxe]; simp, by simp, ?_, ?_⟩
      · intro c hc
        rcases List.mem_append.mp hc with h1 | h2
        · exact hdig c h1
        · rcases List.mem_singleton.mp h2 with rfl
          exact (digitChar_facts _ hmod).1
      · rw [dval_append, hval, (digitChar_facts _ hmod).2]
        omega

/-- Helper: `takeWhile` passes over a fully satisfying block. -/
theorem takeWhile_append_all (p : Char → Bool) :
    ∀ (xs ys : List Char), (∀ x ∈ xs, p x = true) →
      (xs ++ ys).takeWhile p = xs ++ ys.takeWhile p := by
  intro xs
  induction xs with
  | nil => intro ys _; rfl
  | cons x rest ih =>
    intro ys h
    simp only [List.cons_append, List.takeWhile_cons, h x (List.mem_cons_self x rest),
      if_true]
    rw [ih ys (fun a ha => h a (List.mem_cons_of_mem x ha))]

/-- Helper: `dropWhile` drops a fully satisfying block. -/
theorem dropWhile_append_all (p : Char → Bool) :
    ∀ (xs ys : List Char), (∀ x ∈ xs, p x = true) →
      (xs ++ ys).dropWhile p = ys.dropWhile p := by
  intro xs
  induction xs with
  | nil => intro ys _; rfl
  | cons x rest ih =>
    intro ys h
    simp only [List.cons_append, List.dropWhile_cons, h x (List.mem_cons_self x rest),
      if_true]
    exact ih ys (fun a ha => h a (List.mem_cons_of_mem x ha))

/-- Helper: `toList` distributes over string append. -/
theorem toList_append (s t : String) : (s ++ t).toList = s.toList ++ t.toList :=
  String.data_append s t


/-- Claim C5: for every positive integer chain id and every 20-byte
`0x`-prefixed hex address in any letter case,
`parseKeyId (formatKeyId chainId address)` succeeds and returns the chain id
unchanged with the address lower-cased — the round trip is lossless except
for address letter case. -/
theorem c5_keyid_roundtrip (chainId : Nat) (address : String) (h : List Char)
    (_hpos : 0 < chainId)
    (haddr : address.toList = '0' :: 'x' :: h)
    (hlen : h.length = 40)
    (hhex : ∀ c ∈ h, isHexChar c = true) :
    parseKeyId (formatKeyId chainId address)
      = some ⟨chainId, lowerString address⟩ := by
  obtain ⟨xs, hxe, hne, hdig, hval⟩ :=
    toDigitsCore_spec (chainId + 1) chainId [] (Nat.lt_succ_self chainId)
  have hdigits : (Nat.repr chainId).toList = xs := by
    show Nat.toDigitsCore 10 (chainId + 1) chainId [] = xs
    rw [hxe, List.append_nil]
  have hlower : (lowerString address).toList = '0' :: 'x' :: h.map asciiLower := by
    show address.toList.map asciiLower = _
    rw [haddr]
    simp only [List.map_cons]
    rw [show asciiLower '0' = '0' from by decide,
        show asciiLower 'x' = 'x' from by decide]
  have hlist : (formatKeyId chainId address).toList
      = 'e' :: 'r' :: 'c' :: '8' :: '1' :: '2' :: '8' :: ':' ::
        (xs ++ ':' :: ('0' :: 'x' :: h.map asciiLower)) := by
    unfold formatKeyId
    rw [toList_append, toList_append, toList_append, hdigits, hlower]
    simp only [List.append_assoc]
    rfl
  have hcolon : isDigitChar ':' = false := by decide
  have htake : ((xs ++ ':' :: ('0' :: 'x' :: h.map asciiLower)).takeWhile isDigitChar)
      = xs := by
    rw [takeWhile_append_all _ xs _ hdig, List.takeWhile_cons, hcolon]
    simp
  have hdrop : ((xs ++ ':' :: ('0' :: 'x' :: h.map asciiLower)).dropWhile isDigitChar)
      = ':' :: ('0' :: 'x' :: h.map asciiLower) := by
    rw [dropWhile_append_all _ xs _ hdig, List.dropWhile_cons, hcolon]
    simp
  have hok : keyIdAddressOk ('0' :: 'x' :: h.map asciiLower) = true := by
    unfold keyIdAddressOk
    simp only [Bool.and_eq_true, beq_iff_eq, List.length_map, List.all_eq_true]
    refine ⟨hlen, ?_⟩
    intro c hc
    rcases List.mem_map.mp hc with ⟨a, ha, rfl⟩
    exact (asciiLower_hex_facts a (hhex a ha)).1
  have hmapmap : (('0' :: 'x' :: h.map asciiLower).map asciiLower)
      = '0' :: 'x' :: h.map asciiLower := by
    simp only [List.map_cons, List.map_map]
    rw [show asciiLower '0' = '0' from by decide,
        show asciiLower 'x' = 'x' from by decide]
    congr 2
    refine List.map_congr_left ?_
    intro a ha
    exact (asciiLower_hex_facts a (hhex a ha)).2
  have hstr : (('0' :: 'x' :: h.map asciiLower).asString) = lowerString address := by
    apply String.ext
    show ('0' :: 'x' :: h.map asciiLower) = (lowerString address).data
    rw [show (lowerString address).data = (lowerString address).toList from rfl, hlower]
  unfold parseKeyId
  rw [hlist]
  simp only [htake, hdrop, hok, List.isEmpty_eq_true, hmapmap, hstr, if_true]
  rw [if_neg (by simpa using hne)]
  simp only [hval]

/-- Witness for C5 at chain id 1 and a mixed-case address. -/
theorem c5_keyid_roundtrip_witness :
    parseKeyId (formatKeyId 1 exAddr)
      = some ⟨1, "0xaaaaaaaaaaaaaaaaaaaaaaaaaaaaaaaaaaaaaaaa"⟩ := by
  have h := c5_keyid_roundtrip 1 exAddr
    ("AAaaaaaaaaaaaaaaaaaaaaaaaaaaaaaaaaaaaaaa".toList)
    (by decide) (by decide) (by decide) (by decide)
  rw [h]
  decide

end Erc8128
